import Mathlib

/-!
Verification development for the League scoreboard normalization / polling
subsystem (src/src/browser/services/gep.service.ts).

The TypeScript code is shallowly embedded:

* runtime JavaScript values are modelled by `JsVal`; JavaScript numbers are
  idealized as rationals plus a single non-finite marker `jnan` standing for
  NaN and the two infinities (float overflow and float rounding are not
  modelled);
* the builtin `Number()` coercion is modelled by `toNumber` and a faithful
  decimal / hex / octal / binary string grammar `strToNum` (object-to-primitive
  coercion for non-trivial arrays is approximated, see `toNumber`);
* `Math.round` is modelled by `jsRound` (floor of x + 1/2, which is the
  JavaScript tie-towards-positive-infinity rounding);
* the stateful polling service is modelled by pure transition functions on an
  explicit `GepState`, with emitted events collected in a list and the
  outcome of the HTTPS fetch passed in as a `FetchResult` argument;
* `JSON.stringify` on the canonical scoreboard shape is modelled by a
  character-list serializer; the scoreboard differ of the service is literal
  string comparison of those serializations.
-/

/-- Model of a runtime JavaScript value. `jnan` stands for every non-finite
number (NaN, Infinity, -Infinity); finite numbers are idealized rationals.
Objects are insertion-ordered association lists. -/
inductive JsVal where
  | undef : JsVal
  | jnull : JsVal
  | jbool : Bool → JsVal
  | jnum : ℚ → JsVal
  | jnan : JsVal
  | jstr : String → JsVal
  | jarr : List JsVal → JsVal
  | jobj : List (String × JsVal) → JsVal

/-- Nullish values are exactly undefined and null (the values the ?? operator
and optional chaining react to). -/
def isNullish : JsVal → Bool
  | JsVal.undef => true
  | JsVal.jnull => true
  | _ => false

/-- JavaScript truthiness: false, 0, NaN, the empty string, null and undefined
are falsy; every object and array is truthy. -/
def isTruthy : JsVal → Bool
  | JsVal.undef => false
  | JsVal.jnull => false
  | JsVal.jbool b => b
  | JsVal.jnum q => decide (q ≠ 0)
  | JsVal.jnan => false
  | JsVal.jstr s => decide (s ≠ "")
  | JsVal.jarr _ => true
  | JsVal.jobj _ => true

/-- The nullish-coalescing operator a ?? b. -/
def jor (a b : JsVal) : JsVal := if isNullish a then b else a

/-- Property access a?.k (and a.k on a non-nullish object): the first binding
of the key in an object, undefined otherwise. Every access performed by the
embedded service is optional-chained or guarded, so the total model is
faithful. -/
def getField : JsVal → String → JsVal
  | JsVal.jobj fields, key =>
    match fields.find? (fun p => p.1 == key) with
    | some p => p.2
    | none => JsVal.undef
  | _, _ => JsVal.undef

/-- Whitespace characters trimmed by the ToNumber string grammar (the ASCII
white space and line terminator set, plus no-break space). -/
def isWsChar (c : Char) : Bool :=
  c == ' ' || c == '\t' || c == '\n' || c == '\r' || c == '\x0b' || c == '\x0c' || c == '\xa0'

/-- Trim leading and trailing whitespace. -/
def trimWs (cs : List Char) : List Char :=
  ((cs.dropWhile isWsChar).reverse.dropWhile isWsChar).reverse

/-- Value of a hexadecimal digit character. -/
def hexDigVal (c : Char) : Option Nat :=
  if '0' ≤ c && c ≤ '9' then some (c.toNat - 48)
  else if 'a' ≤ c && c ≤ 'f' then some (c.toNat - 87)
  else if 'A' ≤ c && c ≤ 'F' then some (c.toNat - 55)
  else none

/-- Value of a digit character in the given radix, if valid. -/
def radixDigVal (radix : Nat) (c : Char) : Option Nat :=
  match hexDigVal c with
  | some v => if v < radix then some v else none
  | none => none

/-- Accumulate radix digits; fails on the first invalid character. -/
def parseRadixAcc (radix : Nat) : List Char → Nat → Option Nat
  | [], acc => some acc
  | c :: cs, acc =>
    match radixDigVal radix c with
    | some v => parseRadixAcc radix cs (acc * radix + v)
    | none => none

/-- A non-empty all-digits numeral in the given radix. -/
def parseRadixAll (radix : Nat) (cs : List Char) : Option Nat :=
  match cs with
  | [] => none
  | _ => parseRadixAcc radix cs 0

/-- Numeric value of a list of decimal digit characters. -/
def decDigitsVal (ds : List Char) : Nat :=
  ds.foldl (fun a c => a * 10 + (c.toNat - 48)) 0

/-- Exponent part of a decimal literal: an optional sign followed by one or
more digits, consuming the whole input. -/
def parseExpPart (cs : List Char) : Option Int :=
  let signAndRest : Int × List Char :=
    match cs with
    | '+' :: t => (1, t)
    | '-' :: t => (-1, t)
    | _ => (1, cs)
  let ds := signAndRest.2.takeWhile Char.isDigit
  let rest := signAndRest.2.dropWhile Char.isDigit
  if ds.isEmpty || !rest.isEmpty then none
  else some (signAndRest.1 * (decDigitsVal ds : Int))

/-- Unsigned decimal literal body: digits with an optional fraction, or a
leading point with digits, with an optional exponent, consuming the whole
input (the StrUnsignedDecimalLiteral grammar of ToNumber). -/
def parseDecBody (cs : List Char) : Option ℚ :=
  let ip := cs.takeWhile Char.isDigit
  let r1 := cs.dropWhile Char.isDigit
  let fracAndRest : List Char × List Char :=
    match r1 with
    | '.' :: t => (t.takeWhile Char.isDigit, t.dropWhile Char.isDigit)
    | _ => ([], r1)
  let fp := fracAndRest.1
  let r2 := fracAndRest.2
  if ip.isEmpty && fp.isEmpty then none
  else
    let mantissa : ℚ := (decDigitsVal ip : ℚ) + (decDigitsVal fp : ℚ) / (10 : ℚ) ^ fp.length
    match r2 with
    | [] => some mantissa
    | 'e' :: t => (parseExpPart t).map (fun e => mantissa * (10 : ℚ) ^ e)
    | 'E' :: t => (parseExpPart t).map (fun e => mantissa * (10 : ℚ) ^ e)
    | _ => none

/-- Model of the builtin Number() applied to a string: trim whitespace, empty
means 0, explicit infinities are non-finite (`none`), hex / octal / binary
prefixes take unsigned numerals, otherwise a signed decimal literal. `none`
means the conversion is not a finite number. -/
def strToNum (s : String) : Option ℚ :=
  let cs := trimWs s.data
  if cs.isEmpty then some 0
  else if cs = ("Infinity").data || cs = '+' :: ("Infinity").data || cs = '-' :: ("Infinity").data then
    none
  else
    match cs with
    | '0' :: 'x' :: t => (parseRadixAll 16 t).map (fun n => (n : ℚ))
    | '0' :: 'X' :: t => (parseRadixAll 16 t).map (fun n => (n : ℚ))
    | '0' :: 'o' :: t => (parseRadixAll 8 t).map (fun n => (n : ℚ))
    | '0' :: 'O' :: t => (parseRadixAll 8 t).map (fun n => (n : ℚ))
    | '0' :: 'b' :: t => (parseRadixAll 2 t).map (fun n => (n : ℚ))
    | '0' :: 'B' :: t => (parseRadixAll 2 t).map (fun n => (n : ℚ))
    | '+' :: t => parseDecBody t
    | '-' :: t => (parseDecBody t).map (fun q => -q)
    | _ => parseDecBody cs

/-- Model of the builtin Number() coercion; `none` is a non-finite result
(exactly the values rejected by Number.isFinite). Coercion of arrays other
than the empty array and a singleton number (which go through join and
ToString) is approximated as non-finite; no claim depends on those cases.
Plain objects coerce through the string "[object Object]", hence NaN. -/
def toNumber : JsVal → Option ℚ
  | JsVal.undef => none
  | JsVal.jnull => some 0
  | JsVal.jbool b => some (if b then 1 else 0)
  | JsVal.jnum q => some q
  | JsVal.jnan => none
  | JsVal.jstr s => strToNum s
  | JsVal.jarr [] => some 0
  | JsVal.jarr [JsVal.jnum q] => some q
  | JsVal.jarr _ => none
  | JsVal.jobj _ => none

/-- Model of Math.round: floor of x + 1/2, the JavaScript rounding that sends
ties towards positive infinity (stated with the executable Rat.floor; see
jsRound_eq_floor for the Int.floor form). -/
def jsRound (q : ℚ) : Int := (q + 1 / 2).floor

/-- The executable rounding agrees with the mathematical floor. -/
theorem jsRound_eq_floor (q : ℚ) : jsRound q = ⌊q + 1 / 2⌋ := by
  rw [jsRound, Rat.floor_def, Rat.floor_def']

/-- Embedding of normalizeStat (gep.service.ts lines 262-268): coerce with
Number(), null when the result is not finite, otherwise Math.round. -/
def normalizeStat (value : JsVal) : Option Int :=
  match toNumber value with
  | none => none
  | some q => some (jsRound q)

/-- Canonical scoreboard item as produced by mapLeaguePlayer. The four fields
are raw values passed through ?? defaults without coercion, so they stay
`JsVal` (the declared TypeScript type says string / number, but the code does
not enforce it at runtime). -/
structure LeagueScoreboardItem where
  name : JsVal
  rawDisplay : JsVal
  itemId : JsVal
  count : JsVal

/-- Canonical stat block: the five fields are outputs of normalizeStat, hence
integers or null. -/
structure LeagueScoreboardStats where
  maxHealth : Option Int
  attackDamage : Option Int
  abilityPower : Option Int
  armor : Option Int
  magicResist : Option Int
deriving DecidableEq


/-- Canonical player record as produced by mapLeaguePlayer. name, champion and
team are raw values passed through ?? defaults; level and stats come out of
normalizeStat. -/
structure LeagueScoreboardPlayer where
  name : JsVal
  champion : JsVal
  team : JsVal
  level : Option Int
  stats : LeagueScoreboardStats
  items : List LeagueScoreboardItem

/-- Canonical scoreboard: an ordered sequence of canonical players. -/
structure LeagueScoreboard where
  players : List LeagueScoreboardPlayer

/-- Embedding of the item arrow inside mapLeaguePlayer (lines 253-258). -/
def mapLeagueItem (item : JsVal) : LeagueScoreboardItem :=
  { name := jor (getField item ("displayName")) (JsVal.jstr ("Unknown Item"))
    rawDisplay := jor (getField item ("displayName")) (JsVal.jstr (""))
    itemId := jor (getField item ("itemID")) (JsVal.jnum 0)
    count := jor (getField item ("count")) (JsVal.jnum 1) }

/-- Embedding of the rawItems extraction (line 229): player?.items when it is
an array, otherwise the empty list. -/
def rawItemsOf (player : JsVal) : List JsVal :=
  match getField player ("items") with
  | JsVal.jarr xs => xs
  | _ => []

/-- Embedding of the statsSource fallback chain (lines 230-235). -/
def statsSourceOf (player : JsVal) : JsVal :=
  jor (getField player ("championStats"))
    (jor (getField player ("champion_stats"))
      (jor (getField player ("stats"))
        (jor (getField player ("rawStats")) (JsVal.jobj []))))

/-- Embedding of mapLeaguePlayer (gep.service.ts lines 228-260). -/
def mapLeaguePlayer (player : JsVal) : LeagueScoreboardPlayer :=
  let statsSource := statsSourceOf player
  { name := jor (getField player ("summonerName")) (JsVal.jstr ("Unknown"))
    champion := jor (getField player ("championName")) (JsVal.jstr (""))
    team := jor (getField player ("team")) (JsVal.jstr ("ORDER"))
    level := normalizeStat (jor (getField player ("level")) (getField statsSource ("level")))
    stats :=
      { maxHealth := normalizeStat (jor (getField statsSource ("maxHealth")) (getField statsSource ("hp")))
        attackDamage := normalizeStat (jor (getField statsSource ("attackDamage")) (getField statsSource ("ad")))
        abilityPower := normalizeStat (jor (getField statsSource ("abilityPower")) (getField statsSource ("ap")))
        armor := normalizeStat (getField statsSource ("armor"))
        magicResist := normalizeStat
          (jor (getField statsSource ("magicResist"))
            (jor (getField statsSource ("magicResistance")) (getField statsSource ("mr")))) }
    items := ((rawItemsOf player).filter isTruthy).map mapLeagueItem }

example : normalizeStat (JsVal.jstr ("abc")) = none := by decide

example : normalizeStat JsVal.undef = none := by decide

example : normalizeStat (JsVal.jstr ("Infinity")) = none := by decide

example : normalizeStat (JsVal.jstr ("12px")) = none := by decide

example : normalizeStat (JsVal.jstr ("1.2.3")) = none := by decide

/-- Decimal digit character for a value below ten. -/
def digitCh (n : Nat) : Char := Char.ofNat (48 + n)

/-- Most-significant-first decimal digits of a natural number. -/
def natDigits (n : Nat) : List Char :=
  if _h : n < 10 then [digitCh n]
  else natDigits (n / 10) ++ [digitCh (n % 10)]
termination_by n
decreasing_by exact Nat.div_lt_self (by omega) (by omega)

/-- JSON rendering of an integer (the JSON.stringify output for integral
numbers). -/
def serInt (n : Int) : List Char :=
  if n < 0 then '-' :: natDigits n.natAbs else natDigits n.natAbs

/-- Lower-case hexadecimal digit character. -/
def hexDigitCh (n : Nat) : Char := Char.ofNat (if n < 10 then 48 + n else 87 + n)

/-- JSON string escaping of one character, as JSON.stringify performs it:
quote and backslash get two-character escapes, the named control characters
get their short escapes, the remaining control characters get a unicode
escape, and everything else is passed through. -/
def escapeChar (c : Char) : List Char :=
  if c = '"' then ['\\', '"']
  else if c = '\\' then ['\\', '\\']
  else if c = '\x08' then ['\\', 'b']
  else if c = '\x09' then ['\\', 't']
  else if c = '\x0a' then ['\\', 'n']
  else if c = '\x0c' then ['\\', 'f']
  else if c = '\x0d' then ['\\', 'r']
  else if c.toNat < 32 then ['\\', 'u', '0', '0', hexDigitCh (c.toNat / 16), hexDigitCh (c.toNat % 16)]
  else [c]

/-- Escape a list of characters. -/
def escBody : List Char → List Char
  | [] => []
  | c :: cs => escapeChar c ++ escBody cs

/-- JSON rendering of a string literal. -/
def serStr (s : String) : List Char := '"' :: (escBody s.data ++ ['"'])

/-- Opening brace of a JSON object. -/
def objOpen : List Char := ['\x7b']

/-- Closing brace of a JSON object. -/
def objClose : List Char := ['\x7d']

/-- A fixed JSON object key followed by its colon (keys of the canonical
scoreboard shape are plain identifiers needing no escaping). -/
def keyLit (k : String) : List Char := '"' :: (k.data ++ ['"', ':'])

/-- Smallest power of ten divisible by the denominator, when one exists
(it exists exactly when the denominator has only the prime factors 2 and 5,
which covers every binary floating point value). -/
def findPow10 (den : Nat) : Option Nat :=
  (List.range (den + 1)).find? (fun k => 10 ^ k % den == 0)

/-- JSON rendering of a finite number: integers without a point, other
values with only 2 and 5 in the denominator in plain decimal notation
(matching the JavaScript default number-to-string conversion on the values
float data can take; exponent notation for extreme magnitudes is not
modelled); remaining rationals, which no float produces, fall back to a
fraction rendering. -/
def serQ (q : ℚ) : List Char :=
  if q.den = 1 then serInt q.num
  else
    match findPow10 q.den with
    | some k =>
      let ds0 := natDigits (q.num.natAbs * (10 ^ k / q.den))
      let ds := if ds0.length ≤ k then List.replicate (k + 1 - ds0.length) '0' ++ ds0 else ds0
      (if q.num < 0 then ['-'] else []) ++ ds.take (ds.length - k) ++ '.' :: ds.drop (ds.length - k)
    | none => serInt q.num ++ '/' :: natDigits q.den

mutual

/-- JSON.stringify of a runtime value. The canonical scoreboard never holds
undefined in a serialized position (every passthrough field went through ??),
so rendering undefined like null is unobservable; NaN and the infinities do
render as null. -/
def serJsVal : JsVal → List Char
  | JsVal.undef => ("null").data
  | JsVal.jnull => ("null").data
  | JsVal.jbool true => ("true").data
  | JsVal.jbool false => ("false").data
  | JsVal.jnum q => serQ q
  | JsVal.jnan => ("null").data
  | JsVal.jstr s => serStr s
  | JsVal.jarr xs => '[' :: (serJsArr xs ++ [']'])
  | JsVal.jobj fs => objOpen ++ (serJsObj fs ++ objClose)

/-- Comma-separated renderings of array elements. -/
def serJsArr : List JsVal → List Char
  | [] => []
  | [x] => serJsVal x
  | x :: xs => serJsVal x ++ ',' :: serJsArr xs

/-- Comma-separated renderings of object fields. -/
def serJsObj : List (String × JsVal) → List Char
  | [] => []
  | [(k, v)] => serStr k ++ ':' :: serJsVal v
  | (k, v) :: fs => serStr k ++ ':' :: serJsVal v ++ ',' :: serJsObj fs

end

/-- JSON rendering of an integer-or-null stat field. -/
def serOptInt : Option Int → List Char
  | none => ("null").data
  | some n => serInt n

/-- Comma-separated list rendering. -/
def sepListChar {α : Type} (f : α → List Char) : List α → List Char
  | [] => []
  | [a] => f a
  | a :: t => f a ++ ',' :: sepListChar f t

/-- JSON array rendering. -/
def arrSer {α : Type} (f : α → List Char) (l : List α) : List Char :=
  '[' :: (sepListChar f l ++ [']'])

/-- JSON.stringify of a canonical item (field order fixed by the object
literal in mapLeaguePlayer). -/
def leagueItemSer (i : LeagueScoreboardItem) : List Char :=
  objOpen ++ keyLit ("name") ++ serJsVal i.name
    ++ ',' :: keyLit ("rawDisplay") ++ serJsVal i.rawDisplay
    ++ ',' :: keyLit ("itemId") ++ serJsVal i.itemId
    ++ ',' :: keyLit ("count") ++ serJsVal i.count ++ objClose

/-- JSON.stringify of a canonical stat block. -/
def leagueStatsSer (s : LeagueScoreboardStats) : List Char :=
  objOpen ++ keyLit ("maxHealth") ++ serOptInt s.maxHealth
    ++ ',' :: keyLit ("attackDamage") ++ serOptInt s.attackDamage
    ++ ',' :: keyLit ("abilityPower") ++ serOptInt s.abilityPower
    ++ ',' :: keyLit ("armor") ++ serOptInt s.armor
    ++ ',' :: keyLit ("magicResist") ++ serOptInt s.magicResist ++ objClose

/-- JSON.stringify of a canonical player. -/
def leaguePlayerSer (p : LeagueScoreboardPlayer) : List Char :=
  objOpen ++ keyLit ("name") ++ serJsVal p.name
    ++ ',' :: keyLit ("champion") ++ serJsVal p.champion
    ++ ',' :: keyLit ("team") ++ serJsVal p.team
    ++ ',' :: keyLit ("level") ++ serOptInt p.level
    ++ ',' :: keyLit ("stats") ++ leagueStatsSer p.stats
    ++ ',' :: keyLit ("items") ++ arrSer leagueItemSer p.items ++ objClose

/-- JSON.stringify of a canonical scoreboard. -/
def leagueScoreboardSer (sb : LeagueScoreboard) : List Char :=
  objOpen ++ keyLit ("players") ++ arrSer leaguePlayerSer sb.players ++ objClose

/-- The change test of the service (lines 221 and 291):
JSON.stringify(scoreboard) !== JSON.stringify(this.latestScoreboard), where a
missing previous snapshot stringifies to the four characters null. -/
def scoreboardChanged (sb : LeagueScoreboard) (prev : Option LeagueScoreboard) : Bool :=
  leagueScoreboardSer sb != (match prev with
    | none => ("null").data
    | some p => leagueScoreboardSer p)

/-- kGameIds.LeagueofLegends, the tracked polling target. -/
def leagueGameId : Nat := 5426

/-- Events emitted by the service that the claims observe: diagnostic log
lines, the outgoing live-client request, scoreboard updates and the
rate-limited scoreboard errors. -/
inductive GepEvent where
  | logEvent : String → GepEvent
  | netRequest : GepEvent
  | scoreboardUpdate : LeagueScoreboard → GepEvent
  | scoreboardError : String → GepEvent

/-- Outcome of one fetchLeagueLiveClientPlayers call, passed into the poll
cycle: a parsed JSON value, or a failure carrying the error message (network
error, HTTP status of at least 400, or JSON parse error). -/
inductive FetchResult where
  | ok : JsVal → FetchResult
  | err : String → FetchResult

/-- Mutable instance state of GameEventsService. activeIntervals counts the
live setInterval schedules (a ghost resource tracking timer leakage) and
nextTimerId generates fresh handles. -/
structure GepState where
  activeGame : Nat
  latestScoreboard : Option LeagueScoreboard
  leaguePollingTimer : Option Nat
  activeIntervals : Nat
  nextTimerId : Nat
  lastScoreboardErrorTs : Nat

/-- The catch branch of pollLeague (lines 297-306): always log, and emit the
rate-limited scoreboard-error only when more than 5000 ms passed since the
stored timestamp, updating the timestamp exactly when emitting. -/
def pollFail (now : Nat) (msg : String) (st : GepState) : GepState × List GepEvent :=
  if 5000 < now - st.lastScoreboardErrorTs then
    ({ st with lastScoreboardErrorTs := now },
      [GepEvent.logEvent msg, GepEvent.scoreboardError msg])
  else (st, [GepEvent.logEvent msg])

/-- The try branch of pollLeague after the fetch resolves (lines 283-296): a
non-array payload is a failure; otherwise normalize, compare serializations,
store the new snapshot unconditionally, emit an update only on change, and
reset the error timestamp. -/
def pollResolve (now : Nat) (fetch : FetchResult) (st : GepState) : GepState × List GepEvent :=
  match fetch with
  | FetchResult.ok (JsVal.jarr players) =>
    let sb : LeagueScoreboard := ⟨players.map mapLeaguePlayer⟩
    ({ st with latestScoreboard := some sb, lastScoreboardErrorTs := 0 },
      if scoreboardChanged sb st.latestScoreboard then [GepEvent.scoreboardUpdate sb] else [])
  | FetchResult.ok _ => pollFail now ("Invalid live client response") st
  | FetchResult.err msg => pollFail now msg st

/-- One complete pollLeague invocation (lines 278-307): the cycle is a no-op
when the active game is no longer the League target; otherwise the request
goes out and the resolution runs on the fetch outcome. -/
def pollCycle (now : Nat) (fetch : FetchResult) (st : GepState) : GepState × List GepEvent :=
  if st.activeGame ≠ leagueGameId then (st, [])
  else
    ((pollResolve now fetch st).1, GepEvent.netRequest :: (pollResolve now fetch st).2)

/-- The synchronous part of startLeaguePolling (lines 270-311): a no-op when
a timer already exists, a no-op when not forced and the active game is not
the League target; otherwise the initial pollLeague invocation issues its
request (only when the active-game guard passes) and the recurring interval
is scheduled. The resolution of the initial fetch is a later pollCycle, as
in the asynchronous source. -/
def startLeaguePolling (force : Bool) (st : GepState) : GepState × List GepEvent :=
  if st.leaguePollingTimer.isSome then (st, [])
  else if (force = false) ∧ st.activeGame ≠ leagueGameId then (st, [])
  else
    ({ st with leaguePollingTimer := some st.nextTimerId,
               nextTimerId := st.nextTimerId + 1,
               activeIntervals := st.activeIntervals + 1 },
      if st.activeGame = leagueGameId then [GepEvent.netRequest] else [])

/-- Embedding of stopLeaguePolling (lines 313-318): clear the interval if one
exists. -/
def stopLeaguePolling (st : GepState) : GepState :=
  match st.leaguePollingTimer with
  | some _ => { st with leaguePollingTimer := none, activeIntervals := st.activeIntervals - 1 }
  | none => st

/-- The nested live-data payload extraction of handleLeagueInfoUpdate
(lines 211-212): info.live_client_data ?? info.info?.live_client_data, then
its allPlayers field. -/
def extractAllPlayers (info : JsVal) : JsVal :=
  getField
    (jor (getField info ("live_client_data"))
      (getField (getField info ("info")) ("live_client_data")))
    ("allPlayers")

/-- Embedding of handleLeagueInfoUpdate (lines 204-226): falsy info is
ignored; otherwise polling is started in non-forced mode, and when the
extracted payload is an array it is normalized, compared against the retained
snapshot, stored unconditionally, and an update is emitted only on change. -/
def handleLeagueInfoUpdate (info : JsVal) (st : GepState) : GepState × List GepEvent :=
  if isTruthy info = false then (st, [])
  else
    let s1 := startLeaguePolling false st
    match extractAllPlayers info with
    | JsVal.jarr allPlayers =>
      let sb : LeagueScoreboard := ⟨allPlayers.map mapLeaguePlayer⟩
      ({ s1.1 with latestScoreboard := some sb },
        s1.2 ++ (if scoreboardChanged sb s1.1.latestScoreboard then [GepEvent.scoreboardUpdate sb] else []))
    | _ => s1

/-- Count of scoreboard-error events in an emission list. -/
def errCount (evs : List GepEvent) : Nat :=
  (evs.filter (fun e => match e with
    | GepEvent.scoreboardError _ => true
    | _ => false)).length

/-- A failing poll cycle with the League target active: one request, one log
line, and the rate-limited error exactly when the window has passed. -/
theorem pollCycle_fail_eq (st : GepState) (now : Nat) (msg : String)
    (hGame : st.activeGame = leagueGameId) :
    pollCycle now (FetchResult.err msg) st =
      if st.lastScoreboardErrorTs + 5000 < now then
        ({ st with lastScoreboardErrorTs := now },
          [GepEvent.netRequest, GepEvent.logEvent msg, GepEvent.scoreboardError msg])
      else (st, [GepEvent.netRequest, GepEvent.logEvent msg]) := by
  by_cases h : st.lastScoreboardErrorTs + 5000 < now
  · have h2 : 5000 < now - st.lastScoreboardErrorTs := by omega
    simp [pollCycle, pollResolve, pollFail, hGame, h, h2]
  · have h2 : ¬ 5000 < now - st.lastScoreboardErrorTs := by omega
    simp [pollCycle, pollResolve, pollFail, hGame, h, h2]

/-- A successful poll cycle with the League target active: the snapshot is
replaced, the error timestamp reset, and the update emitted exactly when the
serialized scoreboards differ. -/
theorem pollCycle_ok_eq (st : GepState) (now : Nat) (players : List JsVal)
    (hGame : st.activeGame = leagueGameId) :
    pollCycle now (FetchResult.ok (JsVal.jarr players)) st =
      ({ st with latestScoreboard := some ⟨players.map mapLeaguePlayer⟩,
                 lastScoreboardErrorTs := 0 },
        GepEvent.netRequest ::
          (if scoreboardChanged ⟨players.map mapLeaguePlayer⟩ st.latestScoreboard then
            [GepEvent.scoreboardUpdate ⟨players.map mapLeaguePlayer⟩] else [])) := by
  simp [pollCycle, pollResolve, hGame]

/-- Starting the poller never touches the retained snapshot. -/
theorem startLeaguePolling_latest (force : Bool) (st : GepState) :
    (startLeaguePolling force st).1.latestScoreboard = st.latestScoreboard := by
  unfold startLeaguePolling
  split
  · rfl
  · split
    · rfl
    · rfl

/-- The only event the synchronous part of a start can emit is the outgoing
request. -/
theorem startLeaguePolling_events (force : Bool) (st : GepState) :
    (startLeaguePolling force st).2 = [] ∨
      (startLeaguePolling force st).2 = [GepEvent.netRequest] := by
  unfold startLeaguePolling
  split
  · exact Or.inl rfl
  · split
    · exact Or.inl rfl
    · split
      · exact Or.inr rfl
      · exact Or.inl rfl

/-- Claim C3 (amended): on every poll-cycle failure a diagnostic log event is
emitted, and a scoreboard-error event is emitted if and only if strictly more
than 5000 ms have elapsed since the last stored error timestamp, which is
updated exactly on emission; two consecutive failures within 5000 ms of the
first produce exactly one scoreboard-error and a third failure after the
window produces a second. -/
theorem poll_failure_rate_limited (st : GepState) (now : Nat) (msg : String)
    (hGame : st.activeGame = leagueGameId) :
    GepEvent.logEvent msg ∈ (pollCycle now (FetchResult.err msg) st).2 ∧
    (GepEvent.scoreboardError msg ∈ (pollCycle now (FetchResult.err msg) st).2 ↔
      st.lastScoreboardErrorTs + 5000 < now) ∧
    ((pollCycle now (FetchResult.err msg) st).1.lastScoreboardErrorTs =
      if st.lastScoreboardErrorTs + 5000 < now then now else st.lastScoreboardErrorTs) ∧
    (∀ (st0 : GepState) (t1 t2 t3 : Nat) (m1 m2 m3 : String),
      st0.activeGame = leagueGameId → st0.lastScoreboardErrorTs = 0 →
      5000 < t1 → t1 ≤ t2 → t2 ≤ t1 + 5000 → t1 + 5000 < t3 →
      errCount (pollCycle t1 (FetchResult.err m1) st0).2 +
        errCount (pollCycle t2 (FetchResult.err m2) (pollCycle t1 (FetchResult.err m1) st0).1).2 = 1 ∧
      errCount (pollCycle t3 (FetchResult.err m3)
        (pollCycle t2 (FetchResult.err m2) (pollCycle t1 (FetchResult.err m1) st0).1).1).2 = 1) := by
  refine ⟨?_, ?_, ?_, ?_⟩
  · rw [pollCycle_fail_eq st now msg hGame]
    split <;> simp
  · rw [pollCycle_fail_eq st now msg hGame]
    by_cases h : st.lastScoreboardErrorTs + 5000 < now
    · simp [h]
    · simp [h]
  · rw [pollCycle_fail_eq st now msg hGame]
    by_cases h : st.lastScoreboardErrorTs + 5000 < now
    · simp [h]
    · simp [h]
  · intro st0 t1 t2 t3 m1 m2 m3 hG0 hTs0 h1 h12 h2 h3
    have e1 : pollCycle t1 (FetchResult.err m1) st0 =
        ({ st0 with lastScoreboardErrorTs := t1 },
          [GepEvent.netRequest, GepEvent.logEvent m1, GepEvent.scoreboardError m1]) := by
      rw [pollCycle_fail_eq st0 t1 m1 hG0]
      simp [hTs0, h1]
    have e2 : pollCycle t2 (FetchResult.err m2) ({ st0 with lastScoreboardErrorTs := t1 }) =
        ({ st0 with lastScoreboardErrorTs := t1 },
          [GepEvent.netRequest, GepEvent.logEvent m2]) := by
      rw [pollCycle_fail_eq ({ st0 with lastScoreboardErrorTs := t1 }) t2 m2 hG0]
      have : ¬ t1 + 5000 < t2 := by omega
      simp [this]
    have e3 : pollCycle t3 (FetchResult.err m3) ({ st0 with lastScoreboardErrorTs := t1 }) =
        ({ st0 with lastScoreboardErrorTs := t3 },
          [GepEvent.netRequest, GepEvent.logEvent m3, GepEvent.scoreboardError m3]) := by
      rw [pollCycle_fail_eq ({ st0 with lastScoreboardErrorTs := t1 }) t3 m3 hG0]
      have : t1 + 5000 < t3 := h3
      simp [this]
    rw [e1]
    simp only []
    rw [e2]
    constructor
    · simp [errCount]
    · rw [e3]
      simp [errCount]

/-- An idle service state tracking the League target with no stored error
timestamp. -/
def stIdle : GepState :=
  { activeGame := leagueGameId, latestScoreboard := none, leaguePollingTimer := none,
    activeIntervals := 0, nextTimerId := 0, lastScoreboardErrorTs := 0 }

/-- Witness for claim C3: concrete failure times 6000, 9000, 12000 from a
fresh state produce error counts one, zero, one. -/
theorem poll_failure_rate_limited_witness :
    GepEvent.logEvent ("boom") ∈ (pollCycle 6000 (FetchResult.err ("boom")) stIdle).2 ∧
    (GepEvent.scoreboardError ("boom") ∈ (pollCycle 6000 (FetchResult.err ("boom")) stIdle).2 ↔
      stIdle.lastScoreboardErrorTs + 5000 < 6000) ∧
    (errCount (pollCycle 6000 (FetchResult.err ("a")) stIdle).2 +
      errCount (pollCycle 9000 (FetchResult.err ("b")) (pollCycle 6000 (FetchResult.err ("a")) stIdle).1).2 = 1 ∧
     errCount (pollCycle 12000 (FetchResult.err ("c"))
       (pollCycle 9000 (FetchResult.err ("b")) (pollCycle 6000 (FetchResult.err ("a")) stIdle).1).1).2 = 1) := by
  have h := poll_failure_rate_limited stIdle 6000 ("boom") rfl
  refine ⟨h.1, h.2.1, ?_⟩
  exact h.2.2.2 stIdle 6000 9000 12000 ("a") ("b") ("c") rfl rfl
    (by omega) (by omega) (by omega) (by omega)

/-- A state tracking the League target whose last error was stored at 1000 ms. -/
def stErrAt1000 : GepState :=
  { activeGame := leagueGameId, latestScoreboard := none, leaguePollingTimer := none,
    activeIntervals := 0, nextTimerId := 0, lastScoreboardErrorTs := 1000 }

/-- Counterexample to claim C3 as stated: at time 6000 exactly 5000 ms have
elapsed since the stored error timestamp 1000, so at least 5000 ms have
elapsed, yet the failing cycle emits no scoreboard-error (the code requires
strictly more than 5000 ms). -/
theorem poll_failure_rate_limited_counterexample :
    stErrAt1000.lastScoreboardErrorTs + 5000 ≤ 6000 ∧
    errCount (pollCycle 6000 (FetchResult.err ("boom")) stErrAt1000).2 = 0 := by
  constructor
  · decide
  · rw [pollCycle_fail_eq stErrAt1000 6000 ("boom") rfl]
    have h : ¬ stErrAt1000.lastScoreboardErrorTs + 5000 < 6000 := by decide
    simp [h, errCount]

/-- Claim C4: a start call while already polling is a no-op; a non-forced
start while the active game is not the League target is a no-op that issues
no network request; a forced start always leaves the poller in the polling
state. -/
theorem start_polling_gating (st : GepState) :
    (st.leaguePollingTimer.isSome = true → ∀ force, startLeaguePolling force st = (st, [])) ∧
    (st.leaguePollingTimer = none → st.activeGame ≠ leagueGameId →
      startLeaguePolling false st = (st, []) ∧
      GepEvent.netRequest ∉ (startLeaguePolling false st).2) ∧
    (startLeaguePolling true st).1.leaguePollingTimer.isSome = true := by
  refine ⟨?_, ?_, ?_⟩
  · intro h force
    simp [startLeaguePolling, h]
  · intro h1 h2
    constructor
    · simp [startLeaguePolling, h1, h2]
    · simp [startLeaguePolling, h1, h2]
  · by_cases h : st.leaguePollingTimer.isSome
    · simp [startLeaguePolling, h]
    · simp [startLeaguePolling, h]

/-- Witness for claim C4: from the idle state, a forced start reaches the
polling state, and from a polling state any start is a no-op. -/
theorem start_polling_gating_witness :
    (startLeaguePolling true stIdle).1.leaguePollingTimer.isSome = true ∧
    startLeaguePolling false (startLeaguePolling true stIdle).1 =
      ((startLeaguePolling true stIdle).1, []) := by
  constructor
  · exact (start_polling_gating stIdle).2.2
  · exact (start_polling_gating (startLeaguePolling true stIdle).1).1
      (start_polling_gating stIdle).2.2 false

/-- The intended timer invariant: exactly one live interval schedule when a
timer handle is stored, none otherwise. -/
def timerWF (st : GepState) : Prop :=
  st.activeIntervals = if st.leaguePollingTimer.isSome then 1 else 0

/-- Claim C9: two consecutive starts without an intervening stop keep at most
one live schedule (exactly one when either call was forced), and stop is
idempotent and leaves the idle state with no timer and no schedule. -/
theorem single_schedule_and_stop_idempotent (st : GepState) (f1 f2 : Bool)
    (hwf : timerWF st) :
    timerWF (startLeaguePolling f1 st).1 ∧
    timerWF (startLeaguePolling f2 (startLeaguePolling f1 st).1).1 ∧
    (startLeaguePolling f2 (startLeaguePolling f1 st).1).1.activeIntervals ≤ 1 ∧
    (f1 = true ∨ f2 = true →
      (startLeaguePolling f2 (startLeaguePolling f1 st).1).1.activeIntervals = 1) ∧
    stopLeaguePolling (stopLeaguePolling st) = stopLeaguePolling st ∧
    (stopLeaguePolling st).leaguePollingTimer = none ∧
    (stopLeaguePolling st).activeIntervals = 0 ∧
    timerWF (stopLeaguePolling st) := by
  unfold timerWF at hwf
  have hstop : stopLeaguePolling (stopLeaguePolling st) = stopLeaguePolling st ∧
      (stopLeaguePolling st).leaguePollingTimer = none ∧
      (stopLeaguePolling st).activeIntervals = 0 ∧ timerWF (stopLeaguePolling st) := by
    cases hT : st.leaguePollingTimer with
    | none =>
      have h0 : st.activeIntervals = 0 := by simpa [hT] using hwf
      simp [stopLeaguePolling, hT, h0, timerWF]
    | some h =>
      have h1 : st.activeIntervals = 1 := by simpa [hT] using hwf
      simp [stopLeaguePolling, hT, h1, timerWF]
  cases hT : st.leaguePollingTimer with
  | some h =>
    have h1 : st.activeIntervals = 1 := by simpa [hT] using hwf
    have hno : ∀ f, startLeaguePolling f st = (st, []) := by
      intro f
      simp [startLeaguePolling, hT]
    rw [hno f1, hno f2]
    refine ⟨by simp [timerWF, hT, h1], by simp [timerWF, hT, h1], by simp [h1], ?_, hstop⟩
    intro _
    exact h1
  | none =>
    have h0 : st.activeIntervals = 0 := by simpa [hT] using hwf
    by_cases hGo : (f1 = false) ∧ st.activeGame ≠ leagueGameId
    · have e1 : startLeaguePolling f1 st = (st, []) := by
        simp [startLeaguePolling, hT, hGo]
      by_cases hGo2 : (f2 = false) ∧ st.activeGame ≠ leagueGameId
      · have e2 : startLeaguePolling f2 st = (st, []) := by
          simp [startLeaguePolling, hT, hGo2]
        rw [e1, e2]
        refine ⟨by simp [timerWF, hT, h0], by simp [timerWF, hT, h0], by simp [h0], ?_, hstop⟩
        rintro (hf | hf)
        · rw [hf] at hGo
          simp at hGo
        · rw [hf] at hGo2
          simp at hGo2
      · have e2 : startLeaguePolling f2 st =
            ({ st with leaguePollingTimer := some st.nextTimerId,
                       nextTimerId := st.nextTimerId + 1,
                       activeIntervals := st.activeIntervals + 1 },
              if st.activeGame = leagueGameId then [GepEvent.netRequest] else []) := by
          rw [startLeaguePolling]
          simp [hT, hGo2]
        rw [e1, e2]
        refine ⟨by simp [timerWF, hT, h0], by simp [timerWF, h0], by simp [h0], ?_, hstop⟩
        intro _
        simp [h0]
    · have e1 : startLeaguePolling f1 st =
          ({ st with leaguePollingTimer := some st.nextTimerId,
                     nextTimerId := st.nextTimerId + 1,
                     activeIntervals := st.activeIntervals + 1 },
            if st.activeGame = leagueGameId then [GepEvent.netRequest] else []) := by
        rw [startLeaguePolling]
        simp [hT, hGo]
      have e2 : startLeaguePolling f2
          ({ st with leaguePollingTimer := some st.nextTimerId,
                     nextTimerId := st.nextTimerId + 1,
                     activeIntervals := st.activeIntervals + 1 }) =
          ({ st with leaguePollingTimer := some st.nextTimerId,
                     nextTimerId := st.nextTimerId + 1,
                     activeIntervals := st.activeIntervals + 1 }, []) := by
        simp [startLeaguePolling]
      rw [e1, e2]
      refine ⟨by simp [timerWF, h0], by simp [timerWF, h0], by simp [h0], ?_, hstop⟩
      intro _
      simp [h0]

/-- Witness for claim C9: from the idle well-formed state, two forced starts
leave exactly one schedule and stopping twice equals stopping once. -/
theorem single_schedule_witness :
    (startLeaguePolling true (startLeaguePolling true stIdle).1).1.activeIntervals = 1 ∧
    stopLeaguePolling (stopLeaguePolling stIdle) = stopLeaguePolling stIdle := by
  have h := single_schedule_and_stop_idempotent stIdle true true rfl
  exact ⟨h.2.2.2.1 (Or.inl rfl), h.2.2.2.2.1⟩

/-- Claim C10: a successful poll cycle resets the stored error timestamp to
zero, so the next failing cycle at any wall-clock instant (later than 5000 ms
after the epoch, as every real Date.now() is) emits a scoreboard-error
regardless of how recently the previous error was emitted. -/
theorem success_resets_error_window (st : GepState) (now1 now2 : Nat)
    (players : List JsVal) (msg : String)
    (hGame : st.activeGame = leagueGameId) (hNow : 5000 < now2) :
    (pollCycle now1 (FetchResult.ok (JsVal.jarr players)) st).1.lastScoreboardErrorTs = 0 ∧
    GepEvent.scoreboardError msg ∈
      (pollCycle now2 (FetchResult.err msg)
        (pollCycle now1 (FetchResult.ok (JsVal.jarr players)) st).1).2 := by
  rw [pollCycle_ok_eq st now1 players hGame]
  refine ⟨rfl, ?_⟩
  rw [pollCycle_fail_eq ({ st with latestScoreboard := some (LeagueScoreboard.mk (players.map mapLeaguePlayer)), lastScoreboardErrorTs := 0 }) now2 msg hGame]
  have h : (0 : Nat) + 5000 < now2 := by omega
  simp [h]

/-- Witness for claim C10: concrete failure right after a success emits the
error even though the previous error was just emitted. -/
theorem success_resets_error_window_witness :
    (pollCycle 6000 (FetchResult.ok (JsVal.jarr [])) stErrAt1000).1.lastScoreboardErrorTs = 0 ∧
    GepEvent.scoreboardError ("boom") ∈
      (pollCycle 8000 (FetchResult.err ("boom"))
        (pollCycle 6000 (FetchResult.ok (JsVal.jarr [])) stErrAt1000).1).2 :=
  success_resets_error_window stErrAt1000 6000 8000 [] ("boom") rfl (by omega)

/-- A truthy info-update carrying a player array: polling is started
non-forced, the snapshot is replaced unconditionally, and the update is
emitted only when the change test fires. -/
theorem handleLeagueInfoUpdate_eq (info : JsVal) (st : GepState) (ps2 : List JsVal)
    (hInfo : isTruthy info = true) (hExtract : extractAllPlayers info = JsVal.jarr ps2) :
    handleLeagueInfoUpdate info st =
      ({ (startLeaguePolling false st).1 with
          latestScoreboard := some ⟨ps2.map mapLeaguePlayer⟩ },
        (startLeaguePolling false st).2 ++
          (if scoreboardChanged ⟨ps2.map mapLeaguePlayer⟩
              (startLeaguePolling false st).1.latestScoreboard then
            [GepEvent.scoreboardUpdate ⟨ps2.map mapLeaguePlayer⟩] else [])) := by
  unfold handleLeagueInfoUpdate
  rw [hInfo, hExtract]
  simp

/-- Claim C6: on a successful poll cycle and on a telemetry info-update
carrying a player array, the retained snapshot is replaced by the newly
normalized scoreboard whether or not it changed, and a scoreboard-update
event is emitted exactly when the change test against the previously
retained snapshot fires. -/
theorem acquisition_updates_snapshot (st : GepState) (now : Nat)
    (players : List JsVal) (info : JsVal)
    (hGame : st.activeGame = leagueGameId) :
    ((pollCycle now (FetchResult.ok (JsVal.jarr players)) st).1.latestScoreboard =
        some ⟨players.map mapLeaguePlayer⟩ ∧
      (GepEvent.scoreboardUpdate (⟨players.map mapLeaguePlayer⟩ : LeagueScoreboard) ∈
          (pollCycle now (FetchResult.ok (JsVal.jarr players)) st).2 ↔
        scoreboardChanged ⟨players.map mapLeaguePlayer⟩ st.latestScoreboard = true)) ∧
    (∀ ps2 : List JsVal, isTruthy info = true → extractAllPlayers info = JsVal.jarr ps2 →
      (handleLeagueInfoUpdate info st).1.latestScoreboard = some ⟨ps2.map mapLeaguePlayer⟩ ∧
      (GepEvent.scoreboardUpdate (⟨ps2.map mapLeaguePlayer⟩ : LeagueScoreboard) ∈
          (handleLeagueInfoUpdate info st).2 ↔
        scoreboardChanged ⟨ps2.map mapLeaguePlayer⟩ st.latestScoreboard = true)) := by
  constructor
  · rw [pollCycle_ok_eq st now players hGame]
    refine ⟨rfl, ?_⟩
    by_cases h : scoreboardChanged ⟨players.map mapLeaguePlayer⟩ st.latestScoreboard
    · simp [h]
    · simp [h]
  · intro ps2 hInfo hExtract
    rw [handleLeagueInfoUpdate_eq info st ps2 hInfo hExtract]
    refine ⟨rfl, ?_⟩
    rw [startLeaguePolling_latest false st]
    rcases startLeaguePolling_events false st with he | he
    · by_cases h : scoreboardChanged ⟨ps2.map mapLeaguePlayer⟩ st.latestScoreboard
      · simp [he, h]
      · simp [he, h]
    · by_cases h : scoreboardChanged ⟨ps2.map mapLeaguePlayer⟩ st.latestScoreboard
      · simp [he, h]
      · simp [he, h]

/-- Witness for claim C6: an empty player array on both paths stores the
empty scoreboard, and since the idle state retains no snapshot the change
test fires and the update event is emitted. -/
theorem acquisition_updates_snapshot_witness :
    (pollCycle 0 (FetchResult.ok (JsVal.jarr [])) stIdle).1.latestScoreboard =
      some ⟨([] : List JsVal).map mapLeaguePlayer⟩ ∧
    GepEvent.scoreboardUpdate (⟨([] : List JsVal).map mapLeaguePlayer⟩ : LeagueScoreboard) ∈
      (pollCycle 0 (FetchResult.ok (JsVal.jarr [])) stIdle).2 := by
  have h := (acquisition_updates_snapshot stIdle 0 [] JsVal.undef rfl).1
  refine ⟨h.1, h.2.mpr ?_⟩
  decide

/-- Claim C5: a raw stat value that is a non-numeric string or undefined
normalizes to null, and a value with a finite numeric conversion normalizes
to that number rounded to a nearest integer (the floor of x + 1/2, which is
never farther than one half from the value). -/
theorem normalize_stat_contract :
    (∀ s : String, strToNum s = none → normalizeStat (JsVal.jstr s) = none) ∧
    normalizeStat JsVal.undef = none ∧
    (∀ (v : JsVal) (q : ℚ), toNumber v = some q →
      normalizeStat v = some (jsRound q) ∧ |q - (jsRound q : ℚ)| ≤ 1 / 2) := by
  refine ⟨?_, rfl, ?_⟩
  · intro s h
    simp [normalizeStat, toNumber, h]
  · intro v q h
    refine ⟨by simp [normalizeStat, h], ?_⟩
    rw [jsRound_eq_floor]
    have h1 : ((⌊q + 1 / 2⌋ : Int) : ℚ) ≤ q + 1 / 2 := Int.floor_le _
    have h2 : q + 1 / 2 - 1 < ((⌊q + 1 / 2⌋ : Int) : ℚ) := Int.sub_one_lt_floor _
    rw [abs_le]
    constructor <;> linarith

/-- Witness for claim C5: the non-numeric string abc normalizes to null, and
null (numeric conversion 0) normalizes to the rounded value. -/
theorem normalize_stat_contract_witness :
    strToNum ("abc") = none ∧
    normalizeStat (JsVal.jstr ("abc")) = none ∧
    normalizeStat JsVal.jnull = some (jsRound 0) :=
  ⟨by decide, normalize_stat_contract.1 ("abc") (by decide),
    (normalize_stat_contract.2.2 JsVal.jnull 0 rfl).1⟩

/-- Claim C7 (amended): a nullish summonerName, championName or team falls
back to the literal defaults Unknown, the empty string, and ORDER; a
non-nullish raw value in any of the three positions is passed through
unchanged, so the canonical team field is not restricted to a fixed token
set. -/
theorem player_field_defaults (player : JsVal) :
    (isNullish (getField player ("summonerName")) = true →
      (mapLeaguePlayer player).name = JsVal.jstr ("Unknown")) ∧
    (isNullish (getField player ("summonerName")) = false →
      (mapLeaguePlayer player).name = getField player ("summonerName")) ∧
    (isNullish (getField player ("championName")) = true →
      (mapLeaguePlayer player).champion = JsVal.jstr ("")) ∧
    (isNullish (getField player ("championName")) = false →
      (mapLeaguePlayer player).champion = getField player ("championName")) ∧
    (isNullish (getField player ("team")) = true →
      (mapLeaguePlayer player).team = JsVal.jstr ("ORDER")) ∧
    (isNullish (getField player ("team")) = false →
      (mapLeaguePlayer player).team = getField player ("team")) := by
  refine ⟨?_, ?_, ?_, ?_, ?_, ?_⟩ <;> intro h <;> simp [mapLeaguePlayer, jor, h]

/-- Witness for claim C7: a record with no team gets the ORDER default, and a
record with team X keeps X. -/
theorem player_field_defaults_witness :
    (mapLeaguePlayer (JsVal.jobj [])).name = JsVal.jstr ("Unknown") ∧
    (mapLeaguePlayer (JsVal.jobj [(("team" : String), JsVal.jstr ("X"))])).team =
      JsVal.jstr ("X") :=
  ⟨(player_field_defaults (JsVal.jobj [])).1 rfl,
    (player_field_defaults (JsVal.jobj [(("team" : String), JsVal.jstr ("X"))])).2.2.2.2.2 rfl⟩

/-- Counterexample to claim C7 as stated: the default team token is ORDER,
not A, and an arbitrary raw team string such as X is passed through, so the
canonical team field is not one of exactly two tokens. -/
theorem player_team_counterexample :
    (mapLeaguePlayer (JsVal.jobj [])).team = JsVal.jstr ("ORDER") ∧
    JsVal.jstr ("ORDER") ≠ JsVal.jstr ("A") ∧
    (mapLeaguePlayer (JsVal.jobj [(("team" : String), JsVal.jstr ("X"))])).team =
      JsVal.jstr ("X") ∧
    JsVal.jstr ("X") ≠ JsVal.jstr ("ORDER") ∧
    JsVal.jstr ("X") ≠ JsVal.jstr ("CHAOS") ∧
    JsVal.jstr ("X") ≠ JsVal.jstr ("A") ∧
    JsVal.jstr ("X") ≠ JsVal.jstr ("B") := by
  refine ⟨rfl, ?_, rfl, ?_, ?_, ?_, ?_⟩ <;>
    exact fun h => by injection h with h2; exact absurd h2 (by decide)

/-- Claim C8 (amended): falsy raw item entries are dropped before mapping;
the canonical count is the literal 1 when the raw count is nullish and the
raw count value unchanged otherwise, so a count of at least 1 is not
enforced for present raw counts. -/
theorem item_filter_and_count_defaults (player item : JsVal) :
    (mapLeaguePlayer player).items =
      ((rawItemsOf player).filter isTruthy).map mapLeagueItem ∧
    (isNullish (getField item ("count")) = true →
      (mapLeagueItem item).count = JsVal.jnum 1) ∧
    (isNullish (getField item ("count")) = false →
      (mapLeagueItem item).count = getField item ("count")) := by
  refine ⟨rfl, ?_, ?_⟩ <;> intro h <;> simp [mapLeagueItem, jor, h]

/-- Witness for claim C8: an item with no count data gets count 1, and a
falsy entry mixed with an object entry is dropped. -/
theorem item_filter_and_count_defaults_witness :
    (mapLeaguePlayer (JsVal.jobj [(("items" : String),
        JsVal.jarr [JsVal.jnull, JsVal.jobj []])])).items =
      ((rawItemsOf (JsVal.jobj [(("items" : String),
        JsVal.jarr [JsVal.jnull, JsVal.jobj []])])).filter isTruthy).map mapLeagueItem ∧
    (mapLeagueItem (JsVal.jobj [])).count = JsVal.jnum 1 :=
  ⟨(item_filter_and_count_defaults (JsVal.jobj [(("items" : String),
      JsVal.jarr [JsVal.jnull, JsVal.jobj []])]) (JsVal.jobj [])).1,
    (item_filter_and_count_defaults (JsVal.jobj []) (JsVal.jobj [])).2.1 rfl⟩

/-- A raw player whose only item carries an explicit count of zero. -/
def zeroCountPlayer : JsVal :=
  JsVal.jobj [(("items" : String),
    JsVal.jarr [JsVal.jobj [(("count" : String), JsVal.jnum 0)]])]

/-- Counterexample to claim C8 as stated: a present raw count of 0 survives
into the canonical output, whose count is then smaller than 1. -/
theorem item_count_counterexample :
    (mapLeaguePlayer zeroCountPlayer).items =
      [⟨JsVal.jstr ("Unknown Item"), JsVal.jstr (""), JsVal.jnum 0, JsVal.jnum 0⟩] ∧
    ¬ (1 ≤ (0 : ℚ)) := by
  refine ⟨rfl, by norm_num⟩

/-- The runtime object a canonical stat field is stored as: null or the
number. -/
def statJs : Option Int → JsVal
  | none => JsVal.jnull
  | some n => JsVal.jnum (n : ℚ)

/-- The runtime object a canonical item is stored as (keys in the literal
order of mapLeaguePlayer). -/
def itemRaw (i : LeagueScoreboardItem) : JsVal :=
  JsVal.jobj [(("name" : String), i.name), (("rawDisplay" : String), i.rawDisplay),
    (("itemId" : String), i.itemId), (("count" : String), i.count)]

/-- The runtime object a canonical stat block is stored as. -/
def statsRaw (s : LeagueScoreboardStats) : JsVal :=
  JsVal.jobj [(("maxHealth" : String), statJs s.maxHealth),
    (("attackDamage" : String), statJs s.attackDamage),
    (("abilityPower" : String), statJs s.abilityPower),
    (("armor" : String), statJs s.armor),
    (("magicResist" : String), statJs s.magicResist)]

/-- The runtime object a canonical player record is stored as; this is what
feeding an already-canonical record back into the Stat Normalizer means. -/
def toRaw (p : LeagueScoreboardPlayer) : JsVal :=
  JsVal.jobj [(("name" : String), p.name), (("champion" : String), p.champion),
    (("team" : String), p.team), (("level" : String), statJs p.level),
    (("stats" : String), statsRaw p.stats),
    (("items" : String), JsVal.jarr (p.items.map itemRaw))]

/-- What one round of re-normalization actually does to a canonical record:
team, level, the four chained stat fields and every item count survive, but
name and champion collapse to their defaults, a null armor becomes 0 (the
armor chain has no nullish fallback and the Number() coercion of null is 0),
and the item name, rawDisplay and itemId collapse to their defaults (the
canonical keys differ from the raw keys the normalizer reads). -/
def renormalize (p : LeagueScoreboardPlayer) : LeagueScoreboardPlayer :=
  { name := JsVal.jstr ("Unknown"), champion := JsVal.jstr (""), team := p.team,
    level := p.level,
    stats := { maxHealth := p.stats.maxHealth, attackDamage := p.stats.attackDamage,
               abilityPower := p.stats.abilityPower,
               armor := some (p.stats.armor.getD 0),
               magicResist := p.stats.magicResist },
    items := p.items.map (fun i =>
      { name := JsVal.jstr ("Unknown Item"), rawDisplay := JsVal.jstr (""),
        itemId := JsVal.jnum 0, count := i.count }) }

/-- The ?? operator never produces a nullish value when its fallback is not
nullish. -/
theorem jor_not_nullish (a b : JsVal) (hb : isNullish b = false) :
    isNullish (jor a b) = false := by
  unfold jor
  split
  · exact hb
  · rename_i h
    simpa using h

/-- Rounding an integer returns it unchanged. -/
theorem jsRound_intCast (n : Int) : jsRound (n : ℚ) = n := by
  rw [jsRound_eq_floor, Int.floor_int_add]
  norm_num

/-- Rounding zero gives zero. -/
theorem jsRound_zero : jsRound (0 : ℚ) = 0 := by
  rw [jsRound_eq_floor]
  norm_num

/-- Re-normalizing a stored stat field through a chain whose fallback key is
absent is the identity. -/
theorem normalizeStat_jor_statJs (o : Option Int) :
    normalizeStat (jor (statJs o) JsVal.undef) = o := by
  cases o with
  | none => rfl
  | some n =>
    show some (jsRound ((n : Int) : ℚ)) = some n
    rw [jsRound_intCast]

/-- Re-normalizing a stored armor field maps null to 0 and keeps integers. -/
theorem normalizeStat_statJs_armor (o : Option Int) :
    normalizeStat (statJs o) = some (o.getD 0) := by
  cases o with
  | none =>
    show some (jsRound (0 : ℚ)) = some 0
    rw [jsRound_zero]
  | some n =>
    show some (jsRound ((n : Int) : ℚ)) = some n
    rw [jsRound_intCast]

/-- Re-mapping a stored canonical item: the raw keys the normalizer reads are
absent, so only the count survives. -/
theorem mapLeagueItem_itemRaw (i : LeagueScoreboardItem)
    (hc : isNullish i.count = false) :
    mapLeagueItem (itemRaw i) =
      ⟨JsVal.jstr ("Unknown Item"), JsVal.jstr (""), JsVal.jnum 0, i.count⟩ := by
  have h1 : getField (itemRaw i) ("displayName") = JsVal.undef := rfl
  have h2 : getField (itemRaw i) ("itemID") = JsVal.undef := rfl
  have h3 : getField (itemRaw i) ("count") = i.count := rfl
  simp only [mapLeagueItem, h1, h2, h3, LeagueScoreboardItem.mk.injEq]
  refine ⟨rfl, rfl, rfl, ?_⟩
  simp [jor, hc]

/-- Stored canonical items are objects, hence truthy; the filter keeps all of
them. -/
theorem filter_truthy_itemRaw (l : List LeagueScoreboardItem) :
    (l.map itemRaw).filter isTruthy = l.map itemRaw := by
  induction l with
  | nil => rfl
  | cons a t ih => simp [itemRaw, isTruthy, ih]

/-- One round of re-normalization of a canonical record with non-nullish
team and item counts is exactly the renormalize transform. -/
theorem mapLeaguePlayer_toRaw (p : LeagueScoreboardPlayer)
    (hteam : isNullish p.team = false)
    (hitems : ∀ i ∈ p.items, isNullish i.count = false) :
    mapLeaguePlayer (toRaw p) = renormalize p := by
  have hsrc : statsSourceOf (toRaw p) = statsRaw p.stats := rfl
  have hname : getField (toRaw p) ("summonerName") = JsVal.undef := rfl
  have hchamp : getField (toRaw p) ("championName") = JsVal.undef := rfl
  have hteamF : getField (toRaw p) ("team") = p.team := rfl
  have hlevelF : getField (toRaw p) ("level") = statJs p.level := rfl
  have hitemsF : rawItemsOf (toRaw p) = p.items.map itemRaw := rfl
  have hmh : getField (statsRaw p.stats) ("maxHealth") = statJs p.stats.maxHealth := rfl
  have had : getField (statsRaw p.stats) ("attackDamage") = statJs p.stats.attackDamage := rfl
  have hap : getField (statsRaw p.stats) ("abilityPower") = statJs p.stats.abilityPower := rfl
  have har : getField (statsRaw p.stats) ("armor") = statJs p.stats.armor := rfl
  have hmr : getField (statsRaw p.stats) ("magicResist") = statJs p.stats.magicResist := rfl
  have hhp : getField (statsRaw p.stats) ("hp") = JsVal.undef := rfl
  have had2 : getField (statsRaw p.stats) ("ad") = JsVal.undef := rfl
  have hap2 : getField (statsRaw p.stats) ("ap") = JsVal.undef := rfl
  have hmr2 : getField (statsRaw p.stats) ("magicResistance") = JsVal.undef := rfl
  have hmr3 : getField (statsRaw p.stats) ("mr") = JsVal.undef := rfl
  have hlev2 : getField (statsRaw p.stats) ("level") = JsVal.undef := rfl
  simp only [mapLeaguePlayer, renormalize, hsrc, hname, hchamp, hteamF, hlevelF,
    hitemsF, hmh, had, hap, har, hmr, hhp, had2, hap2, hmr2, hmr3, hlev2,
    LeagueScoreboardPlayer.mk.injEq]
  refine ⟨rfl, rfl, by simp [jor, hteam], normalizeStat_jor_statJs p.level, ?_, ?_⟩
  · simp only [LeagueScoreboardStats.mk.injEq]
    exact ⟨normalizeStat_jor_statJs p.stats.maxHealth,
      normalizeStat_jor_statJs p.stats.attackDamage,
      normalizeStat_jor_statJs p.stats.abilityPower,
      normalizeStat_statJs_armor p.stats.armor,
      normalizeStat_jor_statJs p.stats.magicResist⟩
  · rw [filter_truthy_itemRaw, List.map_map]
    refine List.map_congr_left ?_
    intro i hi
    exact mapLeagueItem_itemRaw i (hitems i hi)

/-- Claim C1 (amended): normalization is not idempotent; re-normalizing an
already-canonical record (any output of the Stat Normalizer) preserves team,
level, maxHealth, attackDamage, abilityPower, magicResist and every item
count, but resets name to Unknown, champion to the empty string, a null armor
to 0, and every item name, rawDisplay and itemId to their defaults. -/
theorem renormalize_characterization (v : JsVal) :
    mapLeaguePlayer (toRaw (mapLeaguePlayer v)) = renormalize (mapLeaguePlayer v) := by
  refine mapLeaguePlayer_toRaw (mapLeaguePlayer v) (jor_not_nullish _ _ rfl) ?_
  intro i hi
  have : i ∈ ((rawItemsOf v).filter isTruthy).map mapLeagueItem := hi
  obtain ⟨x, _, rfl⟩ := List.mem_map.mp this
  exact jor_not_nullish _ _ rfl

/-- A concrete raw player record. -/
def fakerRaw : JsVal :=
  JsVal.jobj [(("summonerName" : String), JsVal.jstr ("Faker")),
    (("championName" : String), JsVal.jstr ("Ahri")),
    (("team" : String), JsVal.jstr ("ORDER"))]

/-- Counterexample to claim C1 as stated: re-normalizing the canonical record
produced for a concrete raw player does not return it unchanged (the name
collapses from Faker to Unknown, because the canonical record stores the
value under name while the normalizer reads summonerName). -/
theorem normalization_not_idempotent :
    mapLeaguePlayer (toRaw (mapLeaguePlayer fakerRaw)) ≠ mapLeaguePlayer fakerRaw := by
  intro h
  have h1 : (mapLeaguePlayer (toRaw (mapLeaguePlayer fakerRaw))).name =
      JsVal.jstr ("Unknown") := rfl
  have h2 : (mapLeaguePlayer fakerRaw).name = JsVal.jstr ("Faker") := rfl
  rw [h, h2] at h1
  injection h1 with h3
  exact absurd h3 (by decide)

/-- The data-model view of a canonical item (source type LeagueScoreboardItem
with the integer-valued numbers the live client delivers). Used to state the
Scoreboard Differ contract over canonical scoreboards. -/
structure SpecItem where
  name : String
  rawDisplay : String
  itemId : Int
  count : Int
deriving DecidableEq

/-- The data-model view of a canonical stat block (source type
LeagueScoreboardStats). -/
structure SpecStats where
  maxHealth : Option Int
  attackDamage : Option Int
  abilityPower : Option Int
  armor : Option Int
  magicResist : Option Int
deriving DecidableEq

/-- The data-model view of a canonical player (source type
LeagueScoreboardPlayer). -/
structure SpecPlayer where
  name : String
  champion : String
  team : String
  level : Option Int
  stats : SpecStats
  items : List SpecItem
deriving DecidableEq

/-- The data-model view of a canonical scoreboard (source type
LeagueScoreboard). -/
structure SpecScoreboard where
  players : List SpecPlayer
deriving DecidableEq

/-- JSON.stringify of a data-model item. -/
def specItemSer (i : SpecItem) : List Char :=
  objOpen ++ keyLit ("name") ++ serStr i.name
    ++ ',' :: keyLit ("rawDisplay") ++ serStr i.rawDisplay
    ++ ',' :: keyLit ("itemId") ++ serInt i.itemId
    ++ ',' :: keyLit ("count") ++ serInt i.count ++ objClose

/-- JSON.stringify of a data-model stat block. -/
def specStatsSer (s : SpecStats) : List Char :=
  objOpen ++ keyLit ("maxHealth") ++ serOptInt s.maxHealth
    ++ ',' :: keyLit ("attackDamage") ++ serOptInt s.attackDamage
    ++ ',' :: keyLit ("abilityPower") ++ serOptInt s.abilityPower
    ++ ',' :: keyLit ("armor") ++ serOptInt s.armor
    ++ ',' :: keyLit ("magicResist") ++ serOptInt s.magicResist ++ objClose

/-- JSON.stringify of a data-model player. -/
def specPlayerSer (p : SpecPlayer) : List Char :=
  objOpen ++ keyLit ("name") ++ serStr p.name
    ++ ',' :: keyLit ("champion") ++ serStr p.champion
    ++ ',' :: keyLit ("team") ++ serStr p.team
    ++ ',' :: keyLit ("level") ++ serOptInt p.level
    ++ ',' :: keyLit ("stats") ++ specStatsSer p.stats
    ++ ',' :: keyLit ("items") ++ arrSer specItemSer p.items ++ objClose

/-- JSON.stringify of a data-model scoreboard. -/
def specStringify (sb : SpecScoreboard) : List Char :=
  objOpen ++ keyLit ("players") ++ arrSer specPlayerSer sb.players ++ objClose

/-- The Scoreboard Differ equality of the service on data-model scoreboards:
literal equality of the JSON.stringify outputs (the negation of the changed
test at lines 221 and 291). -/
def scoreboardEqual (a b : SpecScoreboard) : Bool :=
  specStringify a == specStringify b

/-- Consume an expected literal prefix. -/
def expectLit : List Char → List Char → Option (List Char)
  | [], s => some s
  | _ :: _, [] => none
  | c :: l, d :: s => if c = d then expectLit l s else none

/-- Inverse of escBody up to the closing quote: decode escapes until the
first unescaped quote, returning the decoded characters and the rest. -/
def parseStrBody : List Char → Option (List Char × List Char)
  | '"' :: r => some ([], r)
  | '\\' :: '"' :: r => (parseStrBody r).map (fun p => ('"' :: p.1, p.2))
  | '\\' :: '\\' :: r => (parseStrBody r).map (fun p => ('\\' :: p.1, p.2))
  | '\\' :: 'b' :: r => (parseStrBody r).map (fun p => ('\x08' :: p.1, p.2))
  | '\\' :: 't' :: r => (parseStrBody r).map (fun p => ('\x09' :: p.1, p.2))
  | '\\' :: 'n' :: r => (parseStrBody r).map (fun p => ('\x0a' :: p.1, p.2))
  | '\\' :: 'f' :: r => (parseStrBody r).map (fun p => ('\x0c' :: p.1, p.2))
  | '\\' :: 'r' :: r => (parseStrBody r).map (fun p => ('\x0d' :: p.1, p.2))
  | '\\' :: 'u' :: h1 :: h2 :: h3 :: h4 :: r =>
    match hexDigVal h1, hexDigVal h2, hexDigVal h3, hexDigVal h4 with
    | some v1, some v2, some v3, some v4 =>
      (parseStrBody r).map
        (fun p => (Char.ofNat (((v1 * 16 + v2) * 16 + v3) * 16 + v4) :: p.1, p.2))
    | _, _, _, _ => none
  | '\\' :: _ => none
  | c :: r => (parseStrBody r).map (fun p => (c :: p.1, p.2))
  | [] => none

/-- Inverse of serStr. -/
def parseStrL (s : List Char) : Option (String × List Char) :=
  match s with
  | '"' :: r => (parseStrBody r).map (fun p => (String.mk p.1, p.2))
  | _ => none

/-- Greedily consume decimal digits onto an accumulator. -/
def parseNatAcc : List Char → Nat → Nat × List Char
  | [], acc => (acc, [])
  | c :: r, acc =>
    if c.isDigit then parseNatAcc r (acc * 10 + (c.toNat - 48)) else (acc, c :: r)

/-- A natural numeral: at least one digit, consumed greedily. -/
def parseNatL (s : List Char) : Option (Nat × List Char) :=
  match s with
  | c :: r => if c.isDigit then some (parseNatAcc r (c.toNat - 48)) else none
  | [] => none

/-- Inverse of serInt. -/
def parseIntL (s : List Char) : Option (Int × List Char) :=
  match s with
  | c :: r =>
    if c = '-' then (parseNatL r).map (fun p => (-(p.1 : Int), p.2))
    else (parseNatL (c :: r)).map (fun p => ((p.1 : Int), p.2))
  | [] => none

/-- Inverse of serOptInt. -/
def parseOptIntL (s : List Char) : Option (Option Int × List Char) :=
  match expectLit (("null").data) s with
  | some r => some (none, r)
  | none => (parseIntL s).map (fun p => (some p.1, p.2))

/-- Inverse of specItemSer. -/
def parseSItemL (s : List Char) : Option (SpecItem × List Char) := do
  let s1 ← expectLit (objOpen ++ keyLit ("name")) s
  let (nm, s2) ← parseStrL s1
  let s3 ← expectLit (',' :: keyLit ("rawDisplay")) s2
  let (rd, s4) ← parseStrL s3
  let s5 ← expectLit (',' :: keyLit ("itemId")) s4
  let (iid, s6) ← parseIntL s5
  let s7 ← expectLit (',' :: keyLit ("count")) s6
  let (cnt, s8) ← parseIntL s7
  let s9 ← expectLit objClose s8
  some (⟨nm, rd, iid, cnt⟩, s9)

/-- Inverse of specStatsSer. -/
def parseSStatsL (s : List Char) : Option (SpecStats × List Char) := do
  let s1 ← expectLit (objOpen ++ keyLit ("maxHealth")) s
  let (mh, s2) ← parseOptIntL s1
  let s3 ← expectLit (',' :: keyLit ("attackDamage")) s2
  let (ad, s4) ← parseOptIntL s3
  let s5 ← expectLit (',' :: keyLit ("abilityPower")) s4
  let (ap, s6) ← parseOptIntL s5
  let s7 ← expectLit (',' :: keyLit ("armor")) s6
  let (ar, s8) ← parseOptIntL s7
  let s9 ← expectLit (',' :: keyLit ("magicResist")) s8
  let (mr, s10) ← parseOptIntL s9
  let s11 ← expectLit objClose s10
  some (⟨mh, ad, ap, ar, mr⟩, s11)

/-- Fuelled parser for the elements of a non-empty JSON array. -/
def parseArrItems {α : Type} (pf : List Char → Option (α × List Char)) :
    Nat → List Char → Option (List α × List Char)
  | 0, _ => none
  | fuel + 1, s => do
    let (a, s1) ← pf s
    match s1 with
    | ',' :: s2 =>
      let (as, s3) ← parseArrItems pf fuel s2
      some (a :: as, s3)
    | ']' :: s2 => some ([a], s2)
    | _ => none

/-- Fuelled parser for a JSON array. -/
def parseArrL {α : Type} (pf : List Char → Option (α × List Char)) (fuel : Nat)
    (s : List Char) : Option (List α × List Char) :=
  match s with
  | '[' :: s1 =>
    match s1 with
    | ']' :: s2 => some ([], s2)
    | _ => parseArrItems pf fuel s1
  | _ => none

/-- Inverse of specPlayerSer; the item-array fuel is the remaining input
length, which always suffices. -/
def parseSPlayerL (s : List Char) : Option (SpecPlayer × List Char) := do
  let s1 ← expectLit (objOpen ++ keyLit ("name")) s
  let (nm, s2) ← parseStrL s1
  let s3 ← expectLit (',' :: keyLit ("champion")) s2
  let (ch, s4) ← parseStrL s3
  let s5 ← expectLit (',' :: keyLit ("team")) s4
  let (tm, s6) ← parseStrL s5
  let s7 ← expectLit (',' :: keyLit ("level")) s6
  let (lv, s8) ← parseOptIntL s7
  let s9 ← expectLit (',' :: keyLit ("stats")) s8
  let (stt, s10) ← parseSStatsL s9
  let s11 ← expectLit (',' :: keyLit ("items")) s10
  let (its, s12) ← parseArrL parseSItemL s11.length s11
  let s13 ← expectLit objClose s12
  some (⟨nm, ch, tm, lv, stt, its⟩, s13)

/-- Inverse of specStringify, requiring the whole input to be consumed. -/
def specParse (s : List Char) : Option SpecScoreboard :=
  match (do
    let s1 ← expectLit (objOpen ++ keyLit ("players")) s
    let (ps, s2) ← parseArrL parseSPlayerL s1.length s1
    let s3 ← expectLit objClose s2
    some (ps, s3) : Option (List SpecPlayer × List Char)) with
  | some (ps, []) => some ⟨ps⟩
  | _ => none

/-- Consuming a literal it was given back succeeds. -/
theorem expectLit_rt (l r : List Char) : expectLit l (l ++ r) = some r := by
  induction l with
  | nil => rfl
  | cons c t ih => simp [expectLit, ih]

/-- Consuming a mismatching head fails. -/
theorem expectLit_ne_head (c d : Char) (l s : List Char) (h : c ≠ d) :
    expectLit (c :: l) (d :: s) = none := by
  simp [expectLit, h]

/-- Hex digits of values below sixteen decode back. -/
theorem hexDigVal_hexDigitCh (n : Nat) (h : n < 16) :
    hexDigVal (hexDigitCh n) = some n := by
  interval_cases n <;> decide

set_option maxHeartbeats 1000000 in
/-- Decoding inverts escaping, up to the closing quote. -/
theorem parseStrBody_rt (cs r : List Char) :
    parseStrBody (escBody cs ++ ('"' :: r)) = some (cs, r) := by
  induction cs with
  | nil => rfl
  | cons c t ih =>
    show parseStrBody ((escapeChar c ++ escBody t) ++ ('"' :: r)) = _
    rw [List.append_assoc]
    by_cases h1 : c = '"'
    · subst h1
      rw [show parseStrBody (escapeChar '"' ++ (escBody t ++ ('"' :: r))) =
        (parseStrBody (escBody t ++ ('"' :: r))).map (fun p => ('"' :: p.1, p.2)) from rfl, ih]
      rfl
    by_cases h2 : c = '\\'
    · subst h2
      rw [show parseStrBody (escapeChar '\\' ++ (escBody t ++ ('"' :: r))) =
        (parseStrBody (escBody t ++ ('"' :: r))).map (fun p => ('\\' :: p.1, p.2)) from rfl, ih]
      rfl
    by_cases h3 : c = '\x08'
    · subst h3
      rw [show parseStrBody (escapeChar '\x08' ++ (escBody t ++ ('"' :: r))) =
        (parseStrBody (escBody t ++ ('"' :: r))).map (fun p => ('\x08' :: p.1, p.2)) from rfl, ih]
      rfl
    by_cases h4 : c = '\x09'
    · subst h4
      rw [show parseStrBody (escapeChar '\x09' ++ (escBody t ++ ('"' :: r))) =
        (parseStrBody (escBody t ++ ('"' :: r))).map (fun p => ('\x09' :: p.1, p.2)) from rfl, ih]
      rfl
    by_cases h5 : c = '\x0a'
    · subst h5
      rw [show parseStrBody (escapeChar '\x0a' ++ (escBody t ++ ('"' :: r))) =
        (parseStrBody (escBody t ++ ('"' :: r))).map (fun p => ('\x0a' :: p.1, p.2)) from rfl, ih]
      rfl
    by_cases h6 : c = '\x0c'
    · subst h6
      rw [show parseStrBody (escapeChar '\x0c' ++ (escBody t ++ ('"' :: r))) =
        (parseStrBody (escBody t ++ ('"' :: r))).map (fun p => ('\x0c' :: p.1, p.2)) from rfl, ih]
      rfl
    by_cases h7 : c = '\x0d'
    · subst h7
      rw [show parseStrBody (escapeChar '\x0d' ++ (escBody t ++ ('"' :: r))) =
        (parseStrBody (escBody t ++ ('"' :: r))).map (fun p => ('\x0d' :: p.1, p.2)) from rfl, ih]
      rfl
    by_cases h8 : c.toNat < 32
    · have he : escapeChar c =
          ['\\', 'u', '0', '0', hexDigitCh (c.toNat / 16), hexDigitCh (c.toNat % 16)] := by
        simp [escapeChar, h1, h2, h3, h4, h5, h6, h7, h8]
      rw [he]
      show (match hexDigVal '0', hexDigVal '0', hexDigVal (hexDigitCh (c.toNat / 16)),
          hexDigVal (hexDigitCh (c.toNat % 16)) with
        | some v1, some v2, some v3, some v4 =>
          (parseStrBody (escBody t ++ ('"' :: r))).map
            (fun p => (Char.ofNat (((v1 * 16 + v2) * 16 + v3) * 16 + v4) :: p.1, p.2))
        | _, _, _, _ => none) = some (c :: t, r)
      rw [hexDigVal_hexDigitCh (c.toNat / 16) (by omega),
        hexDigVal_hexDigitCh (c.toNat % 16) (by omega), ih]
      show some (Char.ofNat (((0 * 16 + 0) * 16 + c.toNat / 16) * 16 + c.toNat % 16) :: t, r) =
        some (c :: t, r)
      rw [show ((0 * 16 + 0) * 16 + c.toNat / 16) * 16 + c.toNat % 16 = c.toNat by omega,
        Char.ofNat_toNat]
    · have he : escapeChar c = [c] := by
        simp [escapeChar, h1, h2, h3, h4, h5, h6, h7, h8]
      rw [he]
      show parseStrBody (c :: (escBody t ++ ('"' :: r))) = _
      rw [parseStrBody.eq_def]
      split <;> simp_all

/-- Parsing inverts string serialization. -/
theorem parseStrL_rt (x : String) (r : List Char) :
    parseStrL (serStr x ++ r) = some (x, r) := by
  show parseStrL ('"' :: ((escBody x.data ++ ['"']) ++ r)) = some (x, r)
  rw [List.append_assoc]
  show (parseStrBody (escBody x.data ++ ('"' :: r))).map
    (fun p => (String.mk p.1, p.2)) = some (x, r)
  rw [parseStrBody_rt]
  cases x
  rfl

/-- The decimal digits of a natural number are non-empty. -/
theorem natDigits_ne_nil (n : Nat) : natDigits n ≠ [] := by
  rw [natDigits]
  split <;> simp

/-- Digit characters of values below ten decode back. -/
theorem digitCh_toNat (n : Nat) (h : n < 10) : (digitCh n).toNat = 48 + n := by
  interval_cases n <;> decide

/-- Digit characters of values below ten are digits. -/
theorem digitCh_isDigit (n : Nat) (h : n < 10) : (digitCh n).isDigit = true := by
  interval_cases n <;> decide

/-- Every character of a decimal numeral is a digit. -/
theorem natDigits_isDigit (n : Nat) : ∀ c ∈ natDigits n, c.isDigit = true := by
  induction n using Nat.strong_induction_on with
  | _ n ih =>
    rw [natDigits]
    split
    · rename_i h
      intro c hc
      simp at hc
      subst hc
      exact digitCh_isDigit n h
    · rename_i h
      intro c hc
      simp at hc
      rcases hc with hc | hc
      · exact ih (n / 10) (Nat.div_lt_self (by omega) (by omega)) c hc
      · subst hc
        exact digitCh_isDigit (n % 10) (by omega)

/-- Folding the digit-accumulation step over a decimal numeral recovers the
number. -/
theorem foldl_natDigits (n acc : Nat) :
    (natDigits n).foldl (fun a c => a * 10 + (c.toNat - 48)) acc =
      acc * 10 ^ (natDigits n).length + n := by
  induction n using Nat.strong_induction_on generalizing acc with
  | _ n ih =>
    rw [natDigits]
    split
    · rename_i h
      have e1 : List.foldl (fun a c => a * 10 + (c.toNat - 48)) acc [digitCh n] =
          acc * 10 + ((digitCh n).toNat - 48) := rfl
      rw [e1, digitCh_toNat n h, Nat.add_sub_cancel_left]
      have e2 : ([digitCh n] : List Char).length = 1 := rfl
      rw [e2, pow_one]
    · rename_i h
      rw [List.foldl_append, ih (n / 10) (Nat.div_lt_self (by omega) (by omega))]
      have e1 : List.foldl (fun a c => a * 10 + (c.toNat - 48))
          (acc * 10 ^ (natDigits (n / 10)).length + n / 10) [digitCh (n % 10)] =
          (acc * 10 ^ (natDigits (n / 10)).length + n / 10) * 10 +
            ((digitCh (n % 10)).toNat - 48) := rfl
      rw [e1, digitCh_toNat (n % 10) (by omega), Nat.add_sub_cancel_left]
      have e2 : (natDigits (n / 10) ++ [digitCh (n % 10)]).length =
          (natDigits (n / 10)).length + 1 := by simp
      rw [e2, pow_succ]
      have hdm : 10 * (n / 10) + n % 10 = n := Nat.div_add_mod n 10
      calc (acc * 10 ^ (natDigits (n / 10)).length + n / 10) * 10 + n % 10
          = acc * (10 ^ (natDigits (n / 10)).length * 10) + (10 * (n / 10) + n % 10) := by
            ring
        _ = acc * (10 ^ (natDigits (n / 10)).length * 10) + n := by rw [hdm]

/-- A list whose head is not a digit. -/
def digitBoundary : List Char → Prop
  | [] => True
  | c :: _ => c.isDigit = false

/-- Greedy digit accumulation stops exactly at the boundary. -/
theorem parseNatAcc_append (ds r : List Char) (acc : Nat)
    (hds : ∀ c ∈ ds, c.isDigit = true) (hr : digitBoundary r) :
    parseNatAcc (ds ++ r) acc =
      (ds.foldl (fun a c => a * 10 + (c.toNat - 48)) acc, r) := by
  induction ds generalizing acc with
  | nil =>
    cases r with
    | nil => rfl
    | cons c s =>
      simp only [digitBoundary] at hr
      show (if c.isDigit then parseNatAcc s (acc * 10 + (c.toNat - 48)) else (acc, c :: s)) =
        (acc, c :: s)
      rw [hr]
      rfl
  | cons d t ih =>
    have hd : d.isDigit = true := hds d (by simp)
    show (if d.isDigit then parseNatAcc (t ++ r) (acc * 10 + (d.toNat - 48))
        else (acc, d :: (t ++ r))) = _
    rw [hd]
    show parseNatAcc (t ++ r) (acc * 10 + (d.toNat - 48)) = _
    exact ih _ (fun c hc => hds c (by simp [hc]))

/-- Parsing inverts decimal serialization of naturals, up to a non-digit
boundary. -/
theorem parseNatL_rt (n : Nat) (r : List Char) (hr : digitBoundary r) :
    parseNatL (natDigits n ++ r) = some (n, r) := by
  cases h : natDigits n with
  | nil => exact absurd h (natDigits_ne_nil n)
  | cons c t =>
    have hc : c.isDigit = true := natDigits_isDigit n c (by simp [h])
    have ht : ∀ x ∈ t, x.isDigit = true := fun x hx => natDigits_isDigit n x (by simp [h, hx])
    show (if c.isDigit then some (parseNatAcc (t ++ r) (c.toNat - 48)) else none) = some (n, r)
    rw [hc]
    show some (parseNatAcc (t ++ r) (c.toNat - 48)) = some (n, r)
    rw [parseNatAcc_append t r _ ht hr]
    have hfold := foldl_natDigits n 0
    rw [h] at hfold
    simp only [List.foldl_cons, Nat.zero_mul, Nat.zero_add] at hfold
    rw [hfold]

/-- The first character of an integer serialization is a minus sign or a
digit. -/
theorem serInt_head (n : Int) :
    ∃ c t, serInt n = c :: t ∧ (c = '-' ∨ c.isDigit = true) := by
  by_cases h : n < 0
  · refine ⟨'-', natDigits n.natAbs, ?_, Or.inl rfl⟩
    show (if n < 0 then '-' :: natDigits n.natAbs else natDigits n.natAbs) = _
    rw [if_pos h]
  · cases hd : natDigits n.natAbs with
    | nil => exact absurd hd (natDigits_ne_nil _)
    | cons c t =>
      refine ⟨c, t, ?_, Or.inr (natDigits_isDigit _ c
        (by rw [hd]; exact List.mem_cons_self c t))⟩
      show (if n < 0 then '-' :: natDigits n.natAbs else natDigits n.natAbs) = _
      rw [if_neg h, hd]

/-- Parsing inverts integer serialization, up to a non-digit boundary. -/
theorem parseIntL_rt (n : Int) (r : List Char) (hr : digitBoundary r) :
    parseIntL (serInt n ++ r) = some (n, r) := by
  by_cases h : n < 0
  · have hser : serInt n = '-' :: natDigits n.natAbs := by
      show (if n < 0 then '-' :: natDigits n.natAbs else natDigits n.natAbs) = _
      rw [if_pos h]
    rw [hser]
    show (if ('-' : Char) = '-' then
        (parseNatL (natDigits n.natAbs ++ r)).map (fun p => (-(p.1 : Int), p.2))
      else (parseNatL ('-' :: (natDigits n.natAbs ++ r))).map (fun p => ((p.1 : Int), p.2))) =
      some (n, r)
    rw [if_pos rfl, parseNatL_rt _ _ hr]
    show some (-((n.natAbs : Int)), r) = some (n, r)
    have he : -((n.natAbs : Int)) = n := by omega
    rw [he]
  · have hser : serInt n = natDigits n.natAbs := by
      show (if n < 0 then '-' :: natDigits n.natAbs else natDigits n.natAbs) = _
      rw [if_neg h]
    cases hd : natDigits n.natAbs with
    | nil => exact absurd hd (natDigits_ne_nil _)
    | cons c t =>
      have hc : c.isDigit = true := natDigits_isDigit _ c
        (by rw [hd]; exact List.mem_cons_self c t)
      have hcm : ¬ c = '-' := by
        intro hcc
        rw [hcc] at hc
        exact absurd hc (by decide)
      rw [hser, hd]
      show (if c = '-' then (parseNatL (t ++ r)).map (fun p => (-(p.1 : Int), p.2))
        else (parseNatL (c :: (t ++ r))).map (fun p => ((p.1 : Int), p.2))) = some (n, r)
      rw [if_neg hcm]
      have he : (c :: (t ++ r)) = (natDigits n.natAbs ++ r) := by rw [hd]; rfl
      rw [he, parseNatL_rt _ _ hr]
      show some (((n.natAbs : Int)), r) = some (n, r)
      have h2 : ((n.natAbs : Int)) = n := by omega
      rw [h2]

/-- Parsing inverts null-or-integer serialization, up to a non-digit
boundary. -/
theorem parseOptIntL_rt (o : Option Int) (r : List Char) (hr : digitBoundary r) :
    parseOptIntL (serOptInt o ++ r) = some (o, r) := by
  cases o with
  | none =>
    show parseOptIntL (("null").data ++ r) = some (none, r)
    unfold parseOptIntL
    rw [expectLit_rt]
  | some n =>
    obtain ⟨c, t, hct, hc⟩ := serInt_head n
    have hne : ('n' : Char) ≠ c := by
      rcases hc with hc | hc
      · rw [hc]
        decide
      · intro he
        rw [← he] at hc
        exact absurd hc (by decide)
    have h1 : serOptInt (some n) ++ r = c :: (t ++ r) := by
      show serInt n ++ r = _
      rw [hct]
      rfl
    have h2 : expectLit (("null").data) (serOptInt (some n) ++ r) = none := by
      rw [h1]
      exact expectLit_ne_head 'n' c _ _ hne
    unfold parseOptIntL
    rw [h2]
    show (parseIntL (serOptInt (some n) ++ r)).map (fun p => (some p.1, p.2)) = some (some n, r)
    rw [show serOptInt (some n) ++ r = serInt n ++ r from rfl, parseIntL_rt n r hr]
    rfl

/-- A comma is not a digit, in boundary form. -/
theorem digitBoundary_comma (t : List Char) : digitBoundary (',' :: t) :=
  (by decide : (',' : Char).isDigit = false)

/-- A closing brace is not a digit, in boundary form. -/
theorem digitBoundary_brace (t : List Char) : digitBoundary ('\x7d' :: t) :=
  (by decide : ('\x7d' : Char).isDigit = false)

/-- Parsing inverts item serialization. -/
theorem parseSItemL_rt (i : SpecItem) (r : List Char) :
    parseSItemL (specItemSer i ++ r) = some (i, r) := by
  have h0 : specItemSer i ++ r =
      (objOpen ++ keyLit ("name")) ++ (serStr i.name ++
        ((',' :: keyLit ("rawDisplay")) ++ (serStr i.rawDisplay ++
          ((',' :: keyLit ("itemId")) ++ (serInt i.itemId ++
            ((',' :: keyLit ("count")) ++ (serInt i.count ++ (objClose ++ r)))))))) := by
    simp [specItemSer]
  have hInt1 := parseIntL_rt i.itemId
    ((',' :: keyLit ("count")) ++ (serInt i.count ++ (objClose ++ r))) (digitBoundary_comma _)
  have hInt2 := parseIntL_rt i.count (objClose ++ r) (digitBoundary_brace r)
  simp only [parseSItemL, h0, expectLit_rt, parseStrL_rt, hInt1, hInt2,
    Option.bind_eq_bind, Option.some_bind]

/-- Parsing inverts stat-block serialization. -/
theorem parseSStatsL_rt (st : SpecStats) (r : List Char) :
    parseSStatsL (specStatsSer st ++ r) = some (st, r) := by
  have h0 : specStatsSer st ++ r =
      (objOpen ++ keyLit ("maxHealth")) ++ (serOptInt st.maxHealth ++
        ((',' :: keyLit ("attackDamage")) ++ (serOptInt st.attackDamage ++
          ((',' :: keyLit ("abilityPower")) ++ (serOptInt st.abilityPower ++
            ((',' :: keyLit ("armor")) ++ (serOptInt st.armor ++
              ((',' :: keyLit ("magicResist")) ++ (serOptInt st.magicResist ++
                (objClose ++ r)))))))))) := by
    simp [specStatsSer]
  have h1 := parseOptIntL_rt st.maxHealth
    ((',' :: keyLit ("attackDamage")) ++ (serOptInt st.attackDamage ++
      ((',' :: keyLit ("abilityPower")) ++ (serOptInt st.abilityPower ++
        ((',' :: keyLit ("armor")) ++ (serOptInt st.armor ++
          ((',' :: keyLit ("magicResist")) ++ (serOptInt st.magicResist ++
            (objClose ++ r))))))))) (digitBoundary_comma _)
  have h2 := parseOptIntL_rt st.attackDamage
    ((',' :: keyLit ("abilityPower")) ++ (serOptInt st.abilityPower ++
      ((',' :: keyLit ("armor")) ++ (serOptInt st.armor ++
        ((',' :: keyLit ("magicResist")) ++ (serOptInt st.magicResist ++
          (objClose ++ r))))))) (digitBoundary_comma _)
  have h3 := parseOptIntL_rt st.abilityPower
    ((',' :: keyLit ("armor")) ++ (serOptInt st.armor ++
      ((',' :: keyLit ("magicResist")) ++ (serOptInt st.magicResist ++
        (objClose ++ r))))) (digitBoundary_comma _)
  have h4 := parseOptIntL_rt st.armor
    ((',' :: keyLit ("magicResist")) ++ (serOptInt st.magicResist ++ (objClose ++ r)))
    (digitBoundary_comma _)
  have h5 := parseOptIntL_rt st.magicResist (objClose ++ r) (digitBoundary_brace r)
  simp only [parseSStatsL, h0, expectLit_rt, h1, h2, h3, h4, h5,
    Option.bind_eq_bind, Option.some_bind]

/-- Parsing inverts the separated-list serialization of a non-empty list. -/
theorem parseArrItems_rt {α : Type} (pf : List Char → Option (α × List Char))
    (f : α → List Char) (hpf : ∀ a r, pf (f a ++ r) = some (a, r)) :
    ∀ (l : List α) (r : List Char) (fuel : Nat), l ≠ [] → l.length ≤ fuel →
      parseArrItems pf fuel (sepListChar f l ++ (']' :: r)) = some (l, r) := by
  intro l
  induction l with
  | nil => intro r fuel h _; exact absurd rfl h
  | cons a t ih =>
    intro r fuel _ hfuel
    cases fuel with
    | zero => exact absurd hfuel (by simp)
    | succ fu =>
      cases t with
      | nil =>
        show parseArrItems pf (fu + 1) (f a ++ (']' :: r)) = some ([a], r)
        simp only [parseArrItems, hpf, Option.bind_eq_bind, Option.some_bind]
      | cons b t2 =>
        show parseArrItems pf (fu + 1)
          ((f a ++ (',' :: sepListChar f (b :: t2))) ++ (']' :: r)) = _
        rw [List.append_assoc]
        have hih := ih r fu (by simp) (by simpa using Nat.le_of_succ_le_succ hfuel)
        simp only [parseArrItems, List.cons_append, hpf, hih,
          Option.bind_eq_bind, Option.some_bind]

/-- Parsing inverts array serialization when every element rendering starts
with an object brace. -/
theorem parseArrL_rt {α : Type} (pf : List Char → Option (α × List Char))
    (f : α → List Char) (hpf : ∀ a r, pf (f a ++ r) = some (a, r))
    (hhead : ∀ a, ∃ t, f a = '\x7b' :: t) :
    ∀ (l : List α) (r : List Char) (fuel : Nat), l.length ≤ fuel →
      parseArrL pf fuel (arrSer f l ++ r) = some (l, r) := by
  intro l r fuel hfuel
  cases l with
  | nil => rfl
  | cons a t =>
    have hsep : ∃ u, sepListChar f (a :: t) = '\x7b' :: u := by
      obtain ⟨tt, htt⟩ := hhead a
      cases t with
      | nil => exact ⟨tt, htt⟩
      | cons b t2 =>
        refine ⟨tt ++ (',' :: sepListChar f (b :: t2)), ?_⟩
        show f a ++ (',' :: sepListChar f (b :: t2)) = _
        rw [htt]
        rfl
    obtain ⟨u, hu⟩ := hsep
    show parseArrL pf fuel ('[' :: ((sepListChar f (a :: t) ++ [']']) ++ r)) = _
    rw [List.append_assoc]
    have hcons : sepListChar f (a :: t) ++ (']' :: r) = '\x7b' :: (u ++ (']' :: r)) := by
      rw [hu]
      rfl
    rw [show ([']'] : List Char) ++ r = ']' :: r from rfl, hcons]
    show parseArrItems pf fuel ('\x7b' :: (u ++ (']' :: r))) = some (a :: t, r)
    rw [← hcons]
    exact parseArrItems_rt pf f hpf (a :: t) r fuel (by simp) hfuel

/-- Item renderings start with an object brace. -/
theorem specItemSer_head (i : SpecItem) : ∃ t, specItemSer i = '\x7b' :: t :=
  ⟨_, rfl⟩

/-- Player renderings start with an object brace. -/
theorem specPlayerSer_head (p : SpecPlayer) : ∃ t, specPlayerSer p = '\x7b' :: t :=
  ⟨_, rfl⟩

/-- Element renderings are non-empty on both element types. -/
theorem specItemSer_length_pos (i : SpecItem) : 1 ≤ (specItemSer i).length := by
  obtain ⟨t, ht⟩ := specItemSer_head i
  rw [ht]
  simp

/-- Player renderings are non-empty. -/
theorem specPlayerSer_length_pos (p : SpecPlayer) : 1 ≤ (specPlayerSer p).length := by
  obtain ⟨t, ht⟩ := specPlayerSer_head p
  rw [ht]
  simp

/-- A separated list is at least as long as the list it renders. -/
theorem sepListChar_length {α : Type} (f : α → List Char) (hf : ∀ a, 1 ≤ (f a).length) :
    ∀ l : List α, l.length ≤ (sepListChar f l).length := by
  intro l
  induction l with
  | nil => simp [sepListChar]
  | cons a t ih =>
    cases t with
    | nil => simpa [sepListChar] using hf a
    | cons b t2 =>
      show (b :: t2).length + 1 ≤ (f a ++ (',' :: sepListChar f (b :: t2))).length
      have h1 := hf a
      have h2 := ih
      simp only [List.length_append, List.length_cons] at h2 ⊢
      omega

/-- The rendered array is long enough to serve as parsing fuel for its own
elements. -/
theorem arrSer_fuel_bound {α : Type} (f : α → List Char) (hf : ∀ a, 1 ≤ (f a).length)
    (l : List α) (rest : List Char) : l.length ≤ (arrSer f l ++ rest).length := by
  have h := sepListChar_length f hf l
  simp only [arrSer, List.cons_append, List.length_cons, List.length_append]
  omega

/-- Parsing inverts player serialization. -/
theorem parseSPlayerL_rt (p : SpecPlayer) (r : List Char) :
    parseSPlayerL (specPlayerSer p ++ r) = some (p, r) := by
  have h0 : specPlayerSer p ++ r =
      (objOpen ++ keyLit ("name")) ++ (serStr p.name ++
        ((',' :: keyLit ("champion")) ++ (serStr p.champion ++
          ((',' :: keyLit ("team")) ++ (serStr p.team ++
            ((',' :: keyLit ("level")) ++ (serOptInt p.level ++
              ((',' :: keyLit ("stats")) ++ (specStatsSer p.stats ++
                ((',' :: keyLit ("items")) ++ (arrSer specItemSer p.items ++
                  (objClose ++ r)))))))))))) := by
    simp [specPlayerSer]
  have hLv := parseOptIntL_rt p.level
    ((',' :: keyLit ("stats")) ++ (specStatsSer p.stats ++
      ((',' :: keyLit ("items")) ++ (arrSer specItemSer p.items ++ (objClose ++ r)))))
    (digitBoundary_comma _)
  have hArr := parseArrL_rt parseSItemL specItemSer parseSItemL_rt specItemSer_head
    p.items (objClose ++ r) (arrSer specItemSer p.items ++ (objClose ++ r)).length
    (arrSer_fuel_bound specItemSer specItemSer_length_pos p.items (objClose ++ r))
  simp only [parseSPlayerL, h0, expectLit_rt, parseStrL_rt, hLv, parseSStatsL_rt, hArr,
    Option.bind_eq_bind, Option.some_bind]

/-- Parsing inverts scoreboard serialization, consuming the whole input. -/
theorem specParse_rt (sb : SpecScoreboard) : specParse (specStringify sb) = some sb := by
  have h0 : specStringify sb =
      (objOpen ++ keyLit ("players")) ++
        (arrSer specPlayerSer sb.players ++ (objClose ++ ([] : List Char))) := by
    simp [specStringify]
  have hArr := parseArrL_rt parseSPlayerL specPlayerSer parseSPlayerL_rt specPlayerSer_head
    sb.players (objClose ++ ([] : List Char))
    (arrSer specPlayerSer sb.players ++ (objClose ++ ([] : List Char))).length
    (arrSer_fuel_bound specPlayerSer specPlayerSer_length_pos sb.players
      (objClose ++ ([] : List Char)))
  simp only [specParse, h0, expectLit_rt, hArr, Option.bind_eq_bind, Option.some_bind]

/-- JSON.stringify is injective on canonical scoreboards. -/
theorem specStringify_injective (a b : SpecScoreboard)
    (h : specStringify a = specStringify b) : a = b := by
  have ha := specParse_rt a
  have hb := specParse_rt b
  rw [h] at ha
  rw [hb] at ha
  exact (Option.some.inj ha).symm

/-- Claim C2: the Scoreboard Differ equality (literal equality of the
JSON.stringify renderings) holds exactly for structurally identical
scoreboards; in particular structural identity (with identical item order)
reports unchanged, any difference, including a reordering of the items of
one player, reports changed, and the verdict depends on nothing but the
structural content (object key order is fixed by the canonical shape and
cannot influence it). -/
theorem scoreboard_differ_structural (a b : SpecScoreboard) :
    scoreboardEqual a b = true ↔ a = b := by
  unfold scoreboardEqual
  constructor
  · intro h
    exact specStringify_injective a b (by simpa using h)
  · rintro rfl
    simp

/-- Two one-player scoreboards that differ only in the order of the two
items. -/
def itemBoots : SpecItem := ⟨"Boots", "Boots", 1001, 1⟩

/-- A second distinct item. -/
def itemPotion : SpecItem := ⟨"Potion", "Potion", 2003, 5⟩

/-- A scoreboard whose single player holds Boots before Potion. -/
def sbBootsFirst : SpecScoreboard :=
  ⟨[⟨"Faker", "Ahri", "ORDER", some 7, ⟨some 1200, none, none, none, none⟩,
    [itemBoots, itemPotion]⟩]⟩

/-- The same scoreboard with the items reordered. -/
def sbPotionFirst : SpecScoreboard :=
  ⟨[⟨"Faker", "Ahri", "ORDER", some 7, ⟨some 1200, none, none, none, none⟩,
    [itemPotion, itemBoots]⟩]⟩

/-- Witness for claim C2: a scoreboard equals itself, and reordering the
items of its player makes the differ report a change. -/
theorem scoreboard_differ_structural_witness :
    scoreboardEqual sbBootsFirst sbBootsFirst = true ∧
    scoreboardEqual sbBootsFirst sbPotionFirst = false := by
  constructor
  · exact (scoreboard_differ_structural sbBootsFirst sbBootsFirst).mpr rfl
  · cases hx : scoreboardEqual sbBootsFirst sbPotionFirst with
    | false => rfl
    | true =>
      exact absurd ((scoreboard_differ_structural sbBootsFirst sbPotionFirst).mp hx)
        (by decide)
